import Mathlib

/-!
# SkeletonRenderer (spine-cocos2dx): a shallow embedding

The embedding follows `spine-cocos2dx/3/src/spine/SkeletonRenderer.cpp`.

* C pointers are addresses (`Nat`) into explicit heaps; a null pointer is `none`.
* `float` values are rationals; the clock arithmetic of `update` rounds every result
  to the nearest `float` (`roundFloat`).
* `std::map<std::string, V>` is a finite partial function `String → Option V`.
* Undefined behaviour of the C++ code (null dereference, use of a disposed object,
  `erase(end())`) is an explicit `Fault`, so every operation returns `Except Fault _`.
* Calls into the Spine C runtime and into cocos2d-x that only produce geometry
  (world vertices, uvs, offsets, triangles) are not represented.
-/

namespace spine

/-! ## Data model -/

/-- Undefined behaviour reached by the C++ code. -/
inductive Fault where
  /-- A null pointer was dereferenced. -/
  | nullDeref
  /-- A pointer to a disposed (or never allocated) object was dereferenced. -/
  | useAfterFree
  /-- The call `std::map::erase(it)` was made with `it == end()`. -/
  | eraseEnd
  deriving DecidableEq, Repr

/-- A `std::map<std::string, V>`: `none` means the key has no entry. -/
abbrev StdMap (V : Type) := String → Option V

/-- The empty map. -/
def StdMap.empty {V : Type} : StdMap V := fun _ => none

/-- Assignment `m[k] = v`. -/
def StdMap.set {V : Type} (m : StdMap V) (k : String) (v : V) : StdMap V :=
  fun k' => if k' = k then some v else m k'

/-- Removal `m.erase(m.find(k))` of an existing entry. -/
def StdMap.erase {V : Type} (m : StdMap V) (k : String) : StdMap V :=
  fun k' => if k' = k then none else m k'

/-- A heap of objects of type `α` addressed by `Nat`. -/
abbrev Heap (α : Type) := Nat → Option α

/-- Store `v` at address `p`. -/
def Heap.write {α : Type} (h : Heap α) (p : Nat) (v : α) : Heap α :=
  fun q => if q = p then some v else h q

/-- Dispose the object at address `p`. -/
def Heap.free {α : Type} (h : Heap α) (p : Nat) : Heap α :=
  fun q => if q = p then none else h q

/-- Dereference a non-null pointer. -/
def Heap.deref {α : Type} (h : Heap α) (p : Nat) : Except Fault α :=
  match h p with
  | some v => .ok v
  | none => .error .useAfterFree

/-- Dereference a nullable pointer. -/
def Heap.derefNullable {α : Type} (h : Heap α) (p : Option Nat) : Except Fault α :=
  match p with
  | none => .error .nullDeref
  | some q => h.deref q

/-- The enum `spAttachmentType`. -/
inductive spAttachmentType where
  | SP_ATTACHMENT_REGION
  | SP_ATTACHMENT_BOUNDING_BOX
  | SP_ATTACHMENT_MESH
  | SP_ATTACHMENT_SKINNED_MESH
  deriving DecidableEq, Repr

/-- The enum `spBlendMode`. -/
inductive spBlendMode where
  | SP_BLEND_MODE_NORMAL
  | SP_BLEND_MODE_ADDITIVE
  | SP_BLEND_MODE_MULTIPLY
  | SP_BLEND_MODE_SCREEN
  deriving DecidableEq, Repr

/-- The integer value of an `spBlendMode` enumerator. -/
def spBlendMode.toInt : spBlendMode → Int
  | .SP_BLEND_MODE_NORMAL => 0
  | .SP_BLEND_MODE_ADDITIVE => 1
  | .SP_BLEND_MODE_MULTIPLY => 2
  | .SP_BLEND_MODE_SCREEN => 3

/-- An OpenGL enumerator. -/
abbrev GLenum := Nat

/-- `GL_ONE`. -/
def GL_ONE : GLenum := 1
/-- `GL_ONE_MINUS_SRC_COLOR`. -/
def GL_ONE_MINUS_SRC_COLOR : GLenum := 0x0301
/-- `GL_SRC_ALPHA`. -/
def GL_SRC_ALPHA : GLenum := 0x0302
/-- `GL_ONE_MINUS_SRC_ALPHA`. -/
def GL_ONE_MINUS_SRC_ALPHA : GLenum := 0x0303
/-- `GL_DST_COLOR`. -/
def GL_DST_COLOR : GLenum := 0x0306

/-- The cocos2d-x `BlendFunc`. -/
structure BlendFunc where
  src : GLenum
  dst : GLenum
  deriving DecidableEq, Repr

/-- The cocos2d-x constant `BlendFunc::ALPHA_PREMULTIPLIED`. -/
def BlendFunc.ALPHA_PREMULTIPLIED : BlendFunc := ⟨GL_ONE, GL_ONE_MINUS_SRC_ALPHA⟩

/-- The cocos2d-x `Color3B`: three bytes. -/
structure Color3B where
  r : Nat
  g : Nat
  b : Nat
  deriving DecidableEq, Repr

/-- The cocos2d-x `Color4B`: four bytes. -/
structure Color4B where
  r : Nat
  g : Nat
  b : Nat
  a : Nat
  deriving DecidableEq, Repr

/-- A cocos2d-x texture, as far as the renderer reads it. -/
structure Texture2D where
  pixelsWide : Nat
  pixelsHigh : Nat
  deriving DecidableEq, Repr

/-- An `spAtlasPage`; `rendererObject` is its texture pointer. -/
structure spAtlasPage where
  rendererObject : Option Texture2D
  deriving DecidableEq, Repr

/-- An `spAtlasRegion`; `page` is a nullable pointer into the page heap. -/
structure spAtlasRegion where
  name : String
  rotate : Bool
  page : Option Nat
  deriving DecidableEq, Repr

/-- An attachment: the common `spAttachment` header (`name`, `type`), the
`rendererObject` (an atlas region) and colour that region, mesh and skinned mesh
attachments all carry, the remaining `spRegionAttachment` fields, the
`verticesCount` of an `spMeshAttachment` and the `uvsCount` of an
`spSkinnedMeshAttachment`. -/
structure spAttachment where
  name : String
  type : spAttachmentType
  rendererObject : Option spAtlasRegion
  x : ℚ
  y : ℚ
  scaleX : ℚ
  scaleY : ℚ
  rotation : ℚ
  width : ℚ
  height : ℚ
  r : ℚ
  g : ℚ
  b : ℚ
  a : ℚ
  regionOffsetX : Int
  regionOffsetY : Int
  regionWidth : Int
  regionHeight : Int
  regionOriginalWidth : Int
  regionOriginalHeight : Int
  verticesCount : Nat := 0
  uvsCount : Nat := 0
  deriving DecidableEq

/-- An `spSlot`: `index` identifies the slot, `attachment` is a nullable pointer
into the attachment heap, `blendMode` is `slot->data->blendMode`. -/
structure spSlot where
  index : Nat
  attachment : Option Nat
  blendMode : spBlendMode
  r : ℚ
  g : ℚ
  b : ℚ
  a : ℚ
  deriving DecidableEq

/-- The struct `pageStatus` stored in `_equipMap`. -/
structure pageStatus where
  pageState : Bool
  pageAttachment : Option Nat
  deriving DecidableEq, Repr

/-- The struct `attachmentProperties` stored in `_propertiesMap`. The colour
channels hold the bytes of a `Color4B`; a channel that C++ leaves uninitialised
is `0` here and is never read while `isColorSet` is false. -/
structure attachmentProperties where
  visibility : Bool
  isColorSet : Bool
  r : Nat
  g : Nat
  b : Nat
  a : Nat
  deriving DecidableEq, Repr

/-- The renderer node together with the skeleton it owns.

* `drawOrder` is `_skeleton->drawOrder[0 .. slotsCount)`.
* `attachmentForSlotIndex i name` is the result of the runtime lookup
  `spSkeleton_getAttachmentForSlotIndex(_skeleton, i, name)`.
* `textureOf file` is the texture the engine loads for an image file (null when
  loading fails).
* `nodeColor` and `displayedOpacity` are the node getters `getColor()` and
  `getDisplayedOpacity()`; `scaleX`, `scaleY`, `positionX`, `positionY` are
  `getScaleX()`, `getScaleY()` and `getPosition()`.
* `slotsOrder` lists, for `_skeleton->slots[0 .. slotsCount)` in turn, the position
  of that slot in `drawOrder` (both arrays point at the same slots).
* `worldVertices slot i` is `_worldVertices[i]` after the runtime's
  `computeWorldVertices` call for the slot. -/
structure SkeletonRenderer where
  drawOrder : List spSlot
  slotsOrder : List Nat
  worldVertices : spSlot → Nat → ℚ
  scaleX : ℚ
  scaleY : ℚ
  positionX : ℚ
  positionY : ℚ
  _ownsSkeletonData : Bool
  skeletonR : ℚ
  skeletonG : ℚ
  skeletonB : ℚ
  skeletonA : ℚ
  time : ℚ
  attachmentForSlotIndex : Nat → String → Option Nat
  attachments : Heap spAttachment
  nextAttachment : Nat
  pages : Heap spAtlasPage
  nextPage : Nat
  textureOf : String → Option Texture2D
  nodeColor : Color3B
  displayedOpacity : Nat
  _atlas : Option Nat
  _debugSlots : Bool
  _debugBones : Bool
  _timeScale : ℚ
  _scale : ℚ
  _blendFunc : BlendFunc
  _premultipliedAlpha : Bool
  _attachmentMap : StdMap (Option Nat)
  _equipMap : StdMap pageStatus
  _propertiesMap : StdMap attachmentProperties

/-- Number of slots, `_skeleton->slotsCount`. -/
def SkeletonRenderer.slotsCount (self : SkeletonRenderer) : Nat := self.drawOrder.length

/-! ## Small member functions -/

/-- The method `SkeletonRenderer::setOpacityModifyRGB`. -/
def SkeletonRenderer.setOpacityModifyRGB (self : SkeletonRenderer) (value : Bool) :
    SkeletonRenderer :=
  { self with _premultipliedAlpha := value }

/-- The method `SkeletonRenderer::isOpacityModifyRGB`. -/
def SkeletonRenderer.isOpacityModifyRGB (self : SkeletonRenderer) : Bool :=
  self._premultipliedAlpha

/-- The method `SkeletonRenderer::initialize` (lines 64-79); the vertex buffer, the
batch and the GL program are engine objects and are not represented. -/
def SkeletonRenderer.initializeNode (self : SkeletonRenderer) : SkeletonRenderer :=
  ({ self with
      _atlas := none
      _debugSlots := false
      _debugBones := false
      _timeScale := 1
      _blendFunc := BlendFunc.ALPHA_PREMULTIPLIED }).setOpacityModifyRGB true

/-- The method `SkeletonRenderer::getBlendFunc`. -/
def SkeletonRenderer.getBlendFunc (self : SkeletonRenderer) : BlendFunc := self._blendFunc

/-- The method `SkeletonRenderer::setBlendFunc`. -/
def SkeletonRenderer.setBlendFunc (self : SkeletonRenderer) (blendFunc : BlendFunc) :
    SkeletonRenderer :=
  { self with _blendFunc := blendFunc }

/-- Rounding of a rational to the nearest integer, ties to the even one. -/
def roundHalfEven (x : ℚ) : Int :=
  let f := Rat.floor x
  let r := x - (f : ℚ)
  if r < 1 / 2 then f
  else if 1 / 2 < r then f + 1
  else if f % 2 = 0 then f
  else f + 1

/-- The floor of the binary logarithm of `n`, `0` for `n < 2`; `fuel` bounds the
number of halvings. -/
def log2Floor : Nat → Nat → Nat
  | 0, _ => 0
  | fuel + 1, n => if n < 2 then 0 else log2Floor fuel (n / 2) + 1

/-- The binary exponent of the `float` nearest to a non-zero `x`: the floor of the
binary logarithm of `|x|`, and `-126`, the exponent of the subnormal numbers, when
that is smaller. -/
def floatExponent (x : ℚ) : Int :=
  let k : Int := (log2Floor x.num.natAbs x.num.natAbs : Int) - (log2Floor x.den x.den : Int)
  let e := if (2 : ℚ) ^ k ≤ |x| then k else k - 1
  max e (-126)

/-- The value of a C `float` operation whose exact result is `x`: IEEE 754 binary32
rounding to nearest, ties to even, with a 24 bit significand. A result beyond
`FLT_MAX`, which the format turns into an infinity, stays the rounded rational. -/
def roundFloat (x : ℚ) : ℚ :=
  if x = 0 then 0
  else
    let quantum : ℚ := 2 ^ (floatExponent x - 23)
    (roundHalfEven (x / quantum) : ℚ) * quantum

/-- The method `SkeletonRenderer::setVisibilityForAttachment` (lines 253-267). -/
def SkeletonRenderer.setVisibilityForAttachment (self : SkeletonRenderer)
    (attachmentName : String) (value : Bool) : SkeletonRenderer :=
  match self._propertiesMap attachmentName with
  | none =>
    let prop : attachmentProperties :=
      { visibility := value, isColorSet := false, r := 0, g := 0, b := 0, a := 0 }
    { self with _propertiesMap := self._propertiesMap.set attachmentName prop }
  | some entry =>
    let entry1 := { entry with visibility := value }
    let entry2 := { entry1 with isColorSet := if entry1.isColorSet = true then true else false }
    { self with _propertiesMap := self._propertiesMap.set attachmentName entry2 }

/-- The method `SkeletonRenderer::setColorForAttachment` (lines 269-291). -/
def SkeletonRenderer.setColorForAttachment (self : SkeletonRenderer)
    (attachmentName : String) (col : Color4B) : SkeletonRenderer :=
  match self._propertiesMap attachmentName with
  | none =>
    let prop : attachmentProperties :=
      { isColorSet := true, r := col.r, g := col.g, b := col.b, a := col.a, visibility := true }
    { self with _propertiesMap := self._propertiesMap.set attachmentName prop }
  | some entry =>
    let entry1 := { entry with isColorSet := true, r := col.r, g := col.g, b := col.b, a := col.a }
    { self with _propertiesMap := self._propertiesMap.set attachmentName entry1 }

/-- The method `SkeletonRenderer::isAttachmentVisible` (lines 293-296). The member
function is not `const`: the result is paired with the renderer after the call, in
which `operator[]` is applied only on the branch where the key was found. -/
def SkeletonRenderer.isAttachmentVisible (self : SkeletonRenderer) (attachmentName : String) :
    Bool × SkeletonRenderer :=
  match self._propertiesMap attachmentName with
  | none => (true, self)
  | some entry => (entry.visibility, self)

/-! ## Attachment lookup -/

/-- The loop of `SkeletonRenderer::getAttachment(const std::string&)` from index `i`,
with `fuel = slotsCount - i` iterations left. -/
def SkeletonRenderer.getAttachmentFrom (self : SkeletonRenderer) (attachmentName : String) :
    Nat → Nat → Except Fault (Option Nat)
  | 0, _ => .ok none
  | fuel + 1, i =>
    match self.attachmentForSlotIndex i attachmentName with
    | none => self.getAttachmentFrom attachmentName fuel (i + 1)
    | some p =>
      match self.attachments.deref p with
      | .error e => .error e
      | .ok attachment =>
        if attachment.type = .SP_ATTACHMENT_REGION then .ok (some p)
        else self.getAttachmentFrom attachmentName fuel (i + 1)

/-- The method `SkeletonRenderer::getAttachment(const std::string&)` (lines 679-694). -/
def SkeletonRenderer.getAttachment (self : SkeletonRenderer) (attachmentName : String) :
    Except Fault (Option Nat) :=
  self.getAttachmentFrom attachmentName self.slotsCount 0

/-- The loop of `SkeletonRenderer::getAttachmentOffset` from index `i`, with
`fuel = slotsCount - i` iterations left. -/
def SkeletonRenderer.getAttachmentOffsetFrom (self : SkeletonRenderer) (attachmentName : String) :
    Nat → Nat → Except Fault (Option Nat)
  | 0, _ => .ok none
  | fuel + 1, i =>
    match self.attachmentForSlotIndex i attachmentName with
    | none => self.getAttachmentOffsetFrom attachmentName fuel (i + 1)
    | some p =>
      match self.attachments.deref p with
      | .error e => .error e
      | .ok attachment =>
        if attachment.type = .SP_ATTACHMENT_REGION then
          let region := p
          .ok (some region)
        else self.getAttachmentOffsetFrom attachmentName fuel (i + 1)

/-- The method `SkeletonRenderer::getAttachmentOffset` (lines 698-715). -/
def SkeletonRenderer.getAttachmentOffset (self : SkeletonRenderer) (attachmentName : String) :
    Except Fault (Option Nat) :=
  self.getAttachmentOffsetFrom attachmentName self.slotsCount 0

/-! ## Attachment helpers -/

/-- The method `SkeletonRenderer::getCharacterName` (lines 596-599): the name of the
atlas region behind `attachment->rendererObject`. -/
def getCharacterName (attachment : spAttachment) : Except Fault String :=
  match attachment.rendererObject with
  | none => .error .nullDeref
  | some region => .ok region.name

/-- The three overloads of `SkeletonRenderer::getTexture` (lines 602-613):
`attachment->rendererObject->page->rendererObject`. -/
def SkeletonRenderer.getTexture (self : SkeletonRenderer) (attachment : spAttachment) :
    Except Fault (Option Texture2D) :=
  match attachment.rendererObject with
  | none => .error .nullDeref
  | some region =>
    match self.pages.derefNullable region.page with
    | .error e => .error e
    | .ok page => .ok page.rendererObject

/-- Modelled from the spec: `spRegionAttachment_create` of the Spine runtime, which
is not among the sources; it returns a zeroed region attachment with the given
name, unit scale and white colour. -/
def spRegionAttachment_create (name : String) : spAttachment :=
  { name := name, type := .SP_ATTACHMENT_REGION, rendererObject := none,
    x := 0, y := 0, scaleX := 1, scaleY := 1, rotation := 0, width := 0, height := 0,
    r := 1, g := 1, b := 1, a := 1,
    regionOffsetX := 0, regionOffsetY := 0, regionWidth := 0, regionHeight := 0,
    regionOriginalWidth := 0, regionOriginalHeight := 0 }

/-- Modelled from the spec: `spAtlasPage_create_with_filename`, which is not among
the sources; per the comment at its call site the page it creates contains the new
texture of the image file. -/
def spAtlasPage_create_with_filename (self : SkeletonRenderer) (pngName : String) : spAtlasPage :=
  { rendererObject := self.textureOf pngName }

/-- The method `SkeletonRenderer::createAttachmentWithPng` (lines 408-419): returns the
address of the new attachment and the renderer with the new attachment and page
allocated. -/
def SkeletonRenderer.createAttachmentWithPng (self : SkeletonRenderer)
    (attachmentName pngName : String) : Nat × SkeletonRenderer :=
  let newAttachment := self.nextAttachment
  let page := self.nextPage
  let region : spAtlasRegion := { name := attachmentName, rotate := false, page := some page }
  let self1 :=
    { self with
      attachments := self.attachments.write newAttachment
        { spRegionAttachment_create attachmentName with rendererObject := some region }
      nextAttachment := self.nextAttachment + 1
      pages := self.pages.write page (spAtlasPage_create_with_filename self pngName)
      nextPage := self.nextPage + 1 }
  (newAttachment, self1)

/-- The method `SkeletonRenderer::removeAttachment` (lines 421-438): disposes the
page of the attachment's atlas region, the region, and the attachment itself. -/
def SkeletonRenderer.removeAttachment (self : SkeletonRenderer) (attachment : Option Nat) :
    Except Fault SkeletonRenderer :=
  match attachment with
  | none => .ok self
  | some p =>
    match self.attachments.deref p with
    | .error e => .error e
    | .ok att =>
      match att.rendererObject with
      | none => .ok { self with attachments := self.attachments.free p }
      | some region =>
        match region.page with
        | none => .ok { self with attachments := self.attachments.free p }
        | some pageToRemove =>
          match self.pages.deref pageToRemove with
          | .error e => .error e
          | .ok _ =>
            .ok { self with
                  pages := self.pages.free pageToRemove
                  attachments := self.attachments.free p }

/-! ## reset -/

/-- One iteration of the slot loop of `SkeletonRenderer::reset(std::string)`
(lines 174-204). -/
def SkeletonRenderer.resetSlot (self : SkeletonRenderer) (attachmentNameToReset : String)
    (slot : spSlot) : Except Fault (spSlot × SkeletonRenderer) :=
  match slot.attachment with
  | none => .ok (slot, self)
  | some p =>
    match self.attachments.deref p with
    | .error e => .error e
    | .ok attachment =>
      if attachment.type = .SP_ATTACHMENT_REGION then
        match getCharacterName attachment with
        | .error e => .error e
        | .ok attachmentName =>
          if attachmentNameToReset = attachmentName then
            match self._attachmentMap attachmentName with
            | some _tmpAttachment =>
              match self._equipMap attachmentName with
              | none => .error .eraseEnd
              | some _ =>
                let self1 := { self with _equipMap := self._equipMap.erase attachmentName }
                match self1.removeAttachment (some p) with
                | .error e => .error e
                | .ok self2 => .ok ({ slot with attachment := _tmpAttachment }, self2)
            | none => .ok (slot, self)
          else .ok (slot, self)
      else .ok (slot, self)

/-- The slot loop of `SkeletonRenderer::reset(std::string)` over the slots that are
still to be visited. -/
def SkeletonRenderer.resetLoop (attachmentNameToReset : String) :
    List spSlot → SkeletonRenderer → Except Fault (List spSlot × SkeletonRenderer)
  | [], self => .ok ([], self)
  | slot :: rest, self =>
    match self.resetSlot attachmentNameToReset slot with
    | .error e => .error e
    | .ok (slot1, self1) =>
      match SkeletonRenderer.resetLoop attachmentNameToReset rest self1 with
      | .error e => .error e
      | .ok (rest1, self2) => .ok (slot1 :: rest1, self2)

/-- The method `SkeletonRenderer::reset(std::string)` (lines 165-207). -/
def SkeletonRenderer.reset (self : SkeletonRenderer) (attachmentNameToReset : String) :
    Except Fault SkeletonRenderer :=
  match SkeletonRenderer.resetLoop attachmentNameToReset self.drawOrder self with
  | .error e => .error e
  | .ok (slots, self1) => .ok { self1 with drawOrder := slots }

/-- One iteration of the slot loop of `SkeletonRenderer::reset()` (lines 219-248). -/
def SkeletonRenderer.resetAllSlot (self : SkeletonRenderer) (slot : spSlot) :
    Except Fault (spSlot × SkeletonRenderer) :=
  match slot.attachment with
  | none => .ok (slot, self)
  | some p =>
    match self.attachments.deref p with
    | .error e => .error e
    | .ok attachment =>
      if attachment.type = .SP_ATTACHMENT_REGION then
        match getCharacterName attachment with
        | .error e => .error e
        | .ok attachmentName =>
          match self._attachmentMap attachmentName with
          | none =>
            -- `_attachmentMap[attachmentName]` inserts a null entry and yields it
            let self0 := { self with _attachmentMap := self._attachmentMap.set attachmentName none }
            let _tmpAttachment : Option Nat := none
            match self0._equipMap attachmentName with
            | none => .error .eraseEnd
            | some _ =>
              let self1 := { self0 with _equipMap := self0._equipMap.erase attachmentName }
              match self1.removeAttachment (some p) with
              | .error e => .error e
              | .ok self2 => .ok ({ slot with attachment := _tmpAttachment }, self2)
          | some _ => .ok (slot, self)
      else .ok (slot, self)

/-- The slot loop of `SkeletonRenderer::reset()` over the slots still to be visited. -/
def SkeletonRenderer.resetAllLoop :
    List spSlot → SkeletonRenderer → Except Fault (List spSlot × SkeletonRenderer)
  | [], self => .ok ([], self)
  | slot :: rest, self =>
    match self.resetAllSlot slot with
    | .error e => .error e
    | .ok (slot1, self1) =>
      match SkeletonRenderer.resetAllLoop rest self1 with
      | .error e => .error e
      | .ok (rest1, self2) => .ok (slot1 :: rest1, self2)

/-- The method `SkeletonRenderer::reset()` (lines 210-251). -/
def SkeletonRenderer.resetAll (self : SkeletonRenderer) : Except Fault SkeletonRenderer :=
  match SkeletonRenderer.resetAllLoop self.drawOrder self with
  | .error e => .error e
  | .ok (slots, self1) => .ok { self1 with drawOrder := slots }

/-! ## setAttachmentPng -/

/-- The call `std::string::find_last_of(chars)`: the index of the last character of
`s` that occurs in `chars`, `none` for `npos`. -/
def find_last_of (s : List Char) (chars : List Char) : Option Nat :=
  ((List.range s.length).filter (fun i =>
    match s.get? i with
    | some c => chars.contains c
    | none => false)).getLast?

/-- Lines 326-328 of `setAttachmentPng`: the file name without directory and
extension. An `npos` result makes `substr(0, lastindex)` keep the whole string and
makes `npos + 1` wrap to `0`. -/
def rawNameOf (pngName : String) : String :=
  let chars := pngName.toList
  let rawName :=
    match find_last_of chars ['.'] with
    | none => chars
    | some lastindex => chars.take lastindex
  match find_last_of rawName ['/', Char.ofNat 92] with
  | none => String.mk rawName
  | some i => String.mk (rawName.drop (i + 1))

/-- Lines 366-392 of `setAttachmentPng`: copy the placement of the attachment named
`rawName` into the attachment at address `q` and size it from its texture. The calls
`spRegionAttachment_setUVs` and `spRegionAttachment_updateOffset` only write the
`uvs` and `offset` arrays, which are not represented. -/
def SkeletonRenderer.applyPng (self : SkeletonRenderer) (rawName : String) (q : Nat) :
    Except Fault SkeletonRenderer :=
  match self.attachments.deref q with
  | .error e => .error e
  | .ok attachment =>
    match self.getTexture attachment with
    | .error e => .error e
    | .ok tex =>
      match self.getAttachmentOffset rawName with
      | .error e => .error e
      | .ok regionAttachement =>
        match self.attachments.derefNullable regionAttachement with
        | .error e => .error e
        | .ok source =>
          match tex with
          | none => .error .nullDeref
          | some texture =>
            let regionWidth : Int := texture.pixelsWide
            let regionHeight : Int := texture.pixelsHigh
            let attachment1 : spAttachment :=
              { attachment with
                x := source.x
                y := source.y
                scaleX := source.scaleX
                scaleY := source.scaleY
                rotation := source.rotation
                r := source.r
                g := source.g
                b := source.b
                a := source.a
                regionOffsetX := 0
                regionOffsetY := 0
                regionWidth := regionWidth
                regionHeight := regionHeight
                regionOriginalWidth := texture.pixelsWide
                regionOriginalHeight := texture.pixelsHigh
                width := regionWidth * self._scale
                height := regionHeight * self._scale }
            .ok { self with attachments := self.attachments.write q attachment1 }

/-- The branch "atlas page does not exist" of `setAttachmentPng` (lines 334-351)
followed by lines 366-392: save the slot's attachment pointer in `_attachmentMap`,
create the replacement, point the slot at it, record it in `_equipMap`, and copy
placement and size into the replacement. -/
def SkeletonRenderer.equipNewPage (self : SkeletonRenderer)
    (attachmentName pngName currentAttachmentName rawName : String) (slot : spSlot) :
    Except Fault (spSlot × SkeletonRenderer) :=
  let self1 :=
    { self with
      _attachmentMap := self._attachmentMap.set currentAttachmentName slot.attachment }
  let created := self1.createAttachmentWithPng attachmentName pngName
  let newAttachment := created.1
  let self2 := created.2
  let slot1 := { slot with attachment := some newAttachment }
  let self3 :=
    { self2 with
      _equipMap := self2._equipMap.set attachmentName
        { pageState := true, pageAttachment := some newAttachment } }
  match self3.applyPng rawName newAttachment with
  | .error e => .error e
  | .ok self4 => .ok (slot1, self4)

/-- The branch "attachment exists in the map" of `setAttachmentPng` (lines 355-363)
followed by lines 366-392, for the slot's current attachment at address `p`: the
previous texture of its page is released, `_spAtlasPage_createTexture` stores the
texture of `pngName` in the page, and placement and size are copied. -/
def SkeletonRenderer.equipExistingPage (self : SkeletonRenderer) (pngName rawName : String)
    (p : Nat) (attachment : spAttachment) : Except Fault SkeletonRenderer :=
  match attachment.rendererObject with
  | none => .error .nullDeref
  | some region =>
    match region.page with
    | none => .error .nullDeref
    | some attachmentPage =>
      match self.pages.deref attachmentPage with
      | .error e => .error e
      | .ok _ =>
        let self1 :=
          { self with
            pages := self.pages.write attachmentPage
              { rendererObject := self.textureOf pngName } }
        self1.applyPng rawName p

/-- One iteration of the slot loop of `SkeletonRenderer::setAttachmentPng`
(lines 309-399). The first component of the result is `true` when the iteration
executed `return`. -/
def SkeletonRenderer.setAttachmentPngSlot (self : SkeletonRenderer)
    (attachmentName pngName : String) (slot : spSlot) (_avoidDuplication : StdMap Bool) :
    Except Fault (Bool × spSlot × StdMap Bool × SkeletonRenderer) :=
  match slot.attachment with
  | none => .ok (false, slot, _avoidDuplication, self)
  | some p =>
    match self.attachments.deref p with
    | .error e => .error e
    | .ok attachment =>
      if attachment.type = .SP_ATTACHMENT_REGION then
        match getCharacterName attachment with
        | .error e => .error e
        | .ok currentAttachmentName =>
          if attachmentName = currentAttachmentName then
            match _avoidDuplication currentAttachmentName with
            | some _ => .ok (true, slot, _avoidDuplication, self)
            | none =>
              let avoid1 := _avoidDuplication.set currentAttachmentName true
              let rawName := rawNameOf pngName
              let pageMissing : Bool :=
                match self._equipMap attachmentName with
                | none => true
                | some status => status.pageState == false
              if pageMissing then
                match self.equipNewPage attachmentName pngName currentAttachmentName rawName
                    slot with
                | .error e => .error e
                | .ok (slot1, self1) => .ok (false, slot1, avoid1, self1)
              else
                match self.equipExistingPage pngName rawName p attachment with
                | .error e => .error e
                | .ok self1 => .ok (false, slot, avoid1, self1)
          else .ok (false, slot, _avoidDuplication, self)
      else .ok (false, slot, _avoidDuplication, self)

/-- The slot loop of `SkeletonRenderer::setAttachmentPng` over the slots still to
be visited. -/
def SkeletonRenderer.setAttachmentPngLoop (attachmentName pngName : String) :
    List spSlot → StdMap Bool → SkeletonRenderer → Except Fault (List spSlot × SkeletonRenderer)
  | [], _, self => .ok ([], self)
  | slot :: rest, avoid, self =>
    match self.setAttachmentPngSlot attachmentName pngName slot avoid with
    | .error e => .error e
    | .ok (true, slot1, _, self1) => .ok (slot1 :: rest, self1)
    | .ok (false, slot1, avoid1, self1) =>
      match SkeletonRenderer.setAttachmentPngLoop attachmentName pngName rest avoid1 self1 with
      | .error e => .error e
      | .ok (rest1, self2) => .ok (slot1 :: rest1, self2)

/-- The method `SkeletonRenderer::setAttachmentPng` (lines 298-405). -/
def SkeletonRenderer.setAttachmentPng (self : SkeletonRenderer)
    (attachmentName pngName : String) : Except Fault SkeletonRenderer :=
  match SkeletonRenderer.setAttachmentPngLoop attachmentName pngName self.drawOrder
      StdMap.empty self with
  | .error e => .error e
  | .ok (slots, self1) => .ok { self1 with drawOrder := slots }

/-! ## drawSkeleton -/

/-- One `_batch->add` call: the slot, its texture, the attachment colour read into
the locals `r, g, b, a`, and the byte colour handed to the batch. -/
structure BatchAdd where
  slot : spSlot
  texture : Texture2D
  r : ℚ
  g : ℚ
  b : ℚ
  a : ℚ
  color : Color4B
  deriving DecidableEq

/-- What `drawSkeleton` does to the GL state and to the batch, in program order. -/
inductive DrawEvent where
  /-- The call `_batch->flush()`. -/
  | flush
  /-- The call `GL::blendFunc(src, dst)`. -/
  | blendFunc (src dst : GLenum)
  /-- The call `_batch->add(...)`. -/
  | add (item : BatchAdd)
  deriving DecidableEq

/-- Conversion of a `float` to `GLubyte`: truncation toward zero, reduced modulo
`2^8` (a value outside `0..255` is not representable in the byte). -/
def toGLubyte (x : ℚ) : Nat :=
  (Int.emod (if 0 ≤ x then Rat.floor x else Rat.ceil x) 256).toNat

/-- The inner `switch (slot->data->blendMode)` of `drawSkeleton` (lines 526-538):
the arguments of `GL::blendFunc`. -/
def SkeletonRenderer.blendFuncFor (self : SkeletonRenderer) (blendMode : spBlendMode) :
    GLenum × GLenum :=
  match blendMode with
  | .SP_BLEND_MODE_ADDITIVE => (if self._premultipliedAlpha then GL_ONE else GL_SRC_ALPHA, GL_ONE)
  | .SP_BLEND_MODE_MULTIPLY => (GL_DST_COLOR, GL_ONE_MINUS_SRC_ALPHA)
  | .SP_BLEND_MODE_SCREEN => (GL_ONE, GL_ONE_MINUS_SRC_COLOR)
  | _ => (self._blendFunc.src, self._blendFunc.dst)

/-- Lines 540-545 of `drawSkeleton`: the byte colour computed for a slot and the
arguments of the `_batch->add` call. -/
def SkeletonRenderer.batchItem (self : SkeletonRenderer) (slot : spSlot)
    (texture : Texture2D) (r g b a : ℚ) : BatchAdd :=
  let colorA := toGLubyte (self.skeletonA * slot.a * a * 255)
  let multiplier : ℚ := if self._premultipliedAlpha then colorA else 255
  let color : Color4B :=
    { a := colorA
      r := toGLubyte (self.skeletonR * slot.r * r * multiplier)
      g := toGLubyte (self.skeletonG * slot.g * g * multiplier)
      b := toGLubyte (self.skeletonB * slot.b * b * multiplier) }
  { slot := slot, texture := texture, r := r, g := g, b := b, a := a, color := color }

/-- The block `if (texture) { ... }` of `drawSkeleton` (lines 522-546) for a non-null
texture: the events it emits and the value of the local `blendMode` afterwards. -/
def SkeletonRenderer.drawTextured (self : SkeletonRenderer) (slot : spSlot)
    (texture : Texture2D) (r g b a : ℚ) (blendMode : Int) : List DrawEvent × Int :=
  let item := self.batchItem slot texture r g b a
  if slot.blendMode.toInt ≠ blendMode then
    let f := self.blendFuncFor slot.blendMode
    ([.flush, .blendFunc f.1 f.2, .add item], slot.blendMode.toInt)
  else
    ([.add item], blendMode)

/-- The tail shared by the three attachment cases of `drawSkeleton`: fetch the
texture, read the attachment colour into `r, g, b, a`, and run the `if (texture)`
block (lines 481-489, 495-503, 509-517 and 522-546). -/
def SkeletonRenderer.drawAttachment (self : SkeletonRenderer) (slot : spSlot)
    (attachment : spAttachment) (blendMode : Int) (heap : Heap spAttachment) :
    Except Fault (List DrawEvent × Int × Heap spAttachment) :=
  match self.getTexture attachment with
  | .error e => .error e
  | .ok none => .ok ([], blendMode, heap)
  | .ok (some texture) =>
    let out := self.drawTextured slot texture attachment.r attachment.g
      attachment.b attachment.a blendMode
    .ok (out.1, out.2, heap)

/-- One iteration of the slot loop of `drawSkeleton` (lines 459-546): the events
emitted, the local `blendMode` and the attachment heap afterwards. -/
def SkeletonRenderer.drawSlot (self : SkeletonRenderer) (slot : spSlot) (blendMode : Int)
    (heap : Heap spAttachment) : Except Fault (List DrawEvent × Int × Heap spAttachment) :=
  match slot.attachment with
  | none => .ok ([], blendMode, heap)
  | some p =>
    match heap.deref p with
    | .error e => .error e
    | .ok attachment =>
      match attachment.type with
      | .SP_ATTACHMENT_REGION =>
        match getCharacterName attachment with
        | .error e => .error e
        | .ok name =>
          match self._propertiesMap name with
          | some prop =>
            if !prop.visibility then .ok ([], blendMode, heap)
            else if prop.isColorSet then
              let attachment1 : spAttachment :=
                { attachment with r := prop.r, g := prop.g, b := prop.b }
              self.drawAttachment slot attachment1 blendMode (heap.write p attachment1)
            else self.drawAttachment slot attachment blendMode heap
          | none => self.drawAttachment slot attachment blendMode heap
      | .SP_ATTACHMENT_MESH => self.drawAttachment slot attachment blendMode heap
      | .SP_ATTACHMENT_SKINNED_MESH => self.drawAttachment slot attachment blendMode heap
      | _ => .ok ([], blendMode, heap)

/-- The slot loop of `drawSkeleton` over the slots still to be visited. -/
def SkeletonRenderer.drawLoop (self : SkeletonRenderer) :
    List spSlot → Int → Heap spAttachment → Except Fault (List DrawEvent × Heap spAttachment)
  | [], _, heap => .ok ([], heap)
  | slot :: rest, blendMode, heap =>
    match self.drawSlot slot blendMode heap with
    | .error e => .error e
    | .ok (events, blendMode1, heap1) =>
      match self.drawLoop rest blendMode1 heap1 with
      | .error e => .error e
      | .ok (events1, heap2) => .ok (events ++ events1, heap2)

/-- The method `SkeletonRenderer::drawSkeleton` (lines 442-548) up to the final flush;
the debug drawing that follows does not touch the batch. Returns the renderer after
the call and the events in program order. -/
def SkeletonRenderer.drawSkeleton (self : SkeletonRenderer) :
    Except Fault (SkeletonRenderer × List DrawEvent) :=
  let self1 :=
    { self with
      skeletonR := (self.nodeColor.r : ℚ) / 255
      skeletonG := (self.nodeColor.g : ℚ) / 255
      skeletonB := (self.nodeColor.b : ℚ) / 255
      skeletonA := (self.displayedOpacity : ℚ) / 255 }
  match self1.drawLoop self1.drawOrder (-1) self1.attachments with
  | .error e => .error e
  | .ok (events, heap) => .ok ({ self1 with attachments := heap }, events ++ [.flush])

/-! ## Specification-side definitions -/

/-- The items of the `_batch->add` calls of a run, in order. -/
def addedItems : List DrawEvent → List BatchAdd
  | [] => []
  | .add item :: rest => item :: addedItems rest
  | .flush :: rest => addedItems rest
  | .blendFunc _ _ :: rest => addedItems rest

/-- The slots added to the batch by a run, in order. -/
def addedSlots (events : List DrawEvent) : List spSlot :=
  (addedItems events).map (fun item => item.slot)

/-- The name under which the maps know a slot: the atlas region name of its region
attachment, when the slot holds a live region attachment with a region. -/
def SkeletonRenderer.regionNameOf (self : SkeletonRenderer) (slot : spSlot) : Option String :=
  match slot.attachment with
  | none => none
  | some p =>
    match self.attachments p with
    | none => none
    | some attachment =>
      if attachment.type = .SP_ATTACHMENT_REGION then
        match attachment.rendererObject with
        | none => none
        | some region => some region.name
      else none

/-- The slot holds a region attachment whose name has an entry in the properties
map with visibility false. -/
def SkeletonRenderer.isHidden (self : SkeletonRenderer) (slot : spSlot) : Bool :=
  match self.regionNameOf slot with
  | none => false
  | some name =>
    match self._propertiesMap name with
    | none => false
    | some prop => !prop.visibility

/-- The slot has an attachment of type region, mesh or skinned mesh with a non-null
texture. -/
def SkeletonRenderer.hasTexturedAttachment (self : SkeletonRenderer) (slot : spSlot) : Bool :=
  match slot.attachment with
  | none => false
  | some p =>
    match self.attachments p with
    | none => false
    | some attachment =>
      (decide (attachment.type = .SP_ATTACHMENT_REGION) ||
        decide (attachment.type = .SP_ATTACHMENT_MESH) ||
        decide (attachment.type = .SP_ATTACHMENT_SKINNED_MESH)) &&
      (match self.getTexture attachment with
        | .ok (some _) => true
        | _ => false)

/-- The slots the claim says are added to the batch: a drawable attachment with a
texture, and not a hidden region attachment. -/
def SkeletonRenderer.isBatched (self : SkeletonRenderer) (slot : spSlot) : Bool :=
  self.hasTexturedAttachment slot && !self.isHidden slot

/-- The pointers a draw follows from a slot are valid: the attachment is live and,
for a region, mesh or skinned mesh attachment, its atlas region and page are there. -/
def SkeletonRenderer.slotReady (self : SkeletonRenderer) (slot : spSlot) : Bool :=
  match slot.attachment with
  | none => true
  | some p =>
    match self.attachments p with
    | none => false
    | some attachment =>
      match attachment.type with
      | .SP_ATTACHMENT_BOUNDING_BOX => true
      | _ =>
        match self.getTexture attachment with
        | .ok _ => true
        | .error _ => false

/-- Every slot in draw order is ready to be drawn. -/
def SkeletonRenderer.drawReady (self : SkeletonRenderer) : Prop :=
  ∀ slot ∈ self.drawOrder, self.slotReady slot = true

/-- The events the claim prescribes for a sequence of added items, `prev` being the
blend mode of the previously added slot (`none` before the first): a flush and a
blend function exactly when the blend mode changes, then the add. -/
def SkeletonRenderer.expectedEvents (self : SkeletonRenderer) :
    Option spBlendMode → List BatchAdd → List DrawEvent
  | _, [] => []
  | prev, item :: rest =>
    (if prev = some item.slot.blendMode then []
      else [DrawEvent.flush,
            DrawEvent.blendFunc (self.blendFuncFor item.slot.blendMode).1
              (self.blendFuncFor item.slot.blendMode).2]) ++
    DrawEvent.add item :: self.expectedEvents (some item.slot.blendMode) rest

/-- The batches drawn by the flushes of an event sequence, each with the blend
function in force when it is flushed; `current` is the blend function in force and
`pending` the items added since the last flush. -/
def flushedBatches : Option (GLenum × GLenum) → List BatchAdd → List DrawEvent →
    List (Option (GLenum × GLenum) × List BatchAdd)
  | _, _, [] => []
  | current, pending, .flush :: rest => (current, pending) :: flushedBatches current [] rest
  | _, pending, .blendFunc src dst :: rest => flushedBatches (some (src, dst)) pending rest
  | current, pending, .add item :: rest => flushedBatches current (pending ++ [item]) rest

/-- The items still in the batch, not flushed, at the end of an event sequence. -/
def unflushed : List BatchAdd → List DrawEvent → List BatchAdd
  | pending, [] => pending
  | _, .flush :: rest => unflushed [] rest
  | pending, .blendFunc _ _ :: rest => unflushed pending rest
  | pending, .add item :: rest => unflushed (pending ++ [item]) rest

/-- The attachment at slot index `i` found by the skeleton's lookup of `name` is
live and of type region. -/
def SkeletonRenderer.regionAt (self : SkeletonRenderer) (name : String) (i : Nat) : Prop :=
  ∃ p attachment, self.attachmentForSlotIndex i name = some p ∧
    self.attachments p = some attachment ∧ attachment.type = .SP_ATTACHMENT_REGION

/-- Two attachment heaps have the same live addresses and agree on the type and the
atlas region of every attachment. -/
def sameShape (h1 h2 : Heap spAttachment) : Prop :=
  ∀ p, (h1 p).map (fun a => (a.type, a.rendererObject)) =
    (h2 p).map (fun a => (a.type, a.rendererObject))

/-- The value of the local `int blendMode` of `drawSkeleton` when `prev` is the blend
mode of the previously added slot; `-1` before the first slot is added. -/
def blendCode : Option spBlendMode → Int
  | none => -1
  | some mode => mode.toInt

/-! ## Sample renderers -/

/-- A region attachment called `name` that shows the atlas region `region` of the
atlas page at address `page`. -/
def sampleRegion (name region : String) (page : Nat) : spAttachment :=
  { spRegionAttachment_create name with
    rendererObject := some { name := region, rotate := false, page := some page } }

/-- Slot 0 of the sample skeleton, showing the attachment at address 0. -/
def sampleSlot0 : spSlot :=
  { index := 0, attachment := some 0, blendMode := .SP_BLEND_MODE_NORMAL,
    r := 1, g := 1, b := 1, a := 1 }

/-- Slot 1 of the sample skeleton, showing the attachment at address 1 with additive
blending. -/
def sampleSlot1 : spSlot :=
  { index := 1, attachment := some 1, blendMode := .SP_BLEND_MODE_ADDITIVE,
    r := 1, g := 1, b := 1, a := 1 }

/-- A renderer on a skeleton with two slots: slot 0 shows the region `arm`, slot 1
shows the region `leg` with additive blending; the skin also has a region attachment
`hat` for slot 0; all three lie on one atlas page. The engine can load the image
`img/hat.png`. -/
def sampleRenderer : SkeletonRenderer :=
  { drawOrder := [sampleSlot0, sampleSlot1]
    slotsOrder := [0, 1]
    worldVertices := fun slot i => (slot.index : ℚ) + (i : ℚ)
    scaleX := 1
    scaleY := 1
    positionX := 0
    positionY := 0
    _ownsSkeletonData := true
    skeletonR := 1
    skeletonG := 1
    skeletonB := 1
    skeletonA := 1
    time := 0
    attachmentForSlotIndex := fun i name =>
      if i = 0 ∧ name = "arm" then some 0
      else if i = 1 ∧ name = "leg" then some 1
      else if i = 0 ∧ name = "hat" then some 2
      else none
    attachments := fun p =>
      if p = 0 then some (sampleRegion "arm" "arm" 0)
      else if p = 1 then some (sampleRegion "leg" "leg" 0)
      else if p = 2 then some (sampleRegion "hat" "hat" 0)
      else none
    nextAttachment := 3
    pages := fun p => if p = 0 then some { rendererObject := some ⟨64, 64⟩ } else none
    nextPage := 1
    textureOf := fun file => if file = "img/hat.png" then some ⟨10, 20⟩ else none
    nodeColor := ⟨255, 255, 255⟩
    displayedOpacity := 255
    _atlas := none
    _debugSlots := false
    _debugBones := false
    _timeScale := 1
    _scale := 2
    _blendFunc := BlendFunc.ALPHA_PREMULTIPLIED
    _premultipliedAlpha := true
    _attachmentMap := StdMap.empty
    _equipMap := StdMap.empty
    _propertiesMap := StdMap.empty }

/-- A sequence of `setAttachmentPng` calls on one attachment name, one call per image
file, each on the renderer the previous call left. -/
def SkeletonRenderer.setAttachmentPngs (self : SkeletonRenderer) (attachmentName : String) :
    List String → Except Fault SkeletonRenderer
  | [] => .ok self
  | pngName :: rest =>
    match self.setAttachmentPng attachmentName pngName with
    | .error e => .error e
    | .ok self1 => self1.setAttachmentPngs attachmentName rest

/-- The renderer after the first equip of `attachmentName` (lines 338-351 and
366-392): the original pointer `saved` is stored in `_attachmentMap`, the
`replacement` attachment and its page are allocated at the next free addresses, and
`_equipMap` records the replacement. -/
def SkeletonRenderer.afterEquip (self : SkeletonRenderer) (attachmentName pngName : String)
    (saved : Option Nat) (replacement : spAttachment) : SkeletonRenderer :=
  { self with
    _attachmentMap := self._attachmentMap.set attachmentName saved
    attachments := self.attachments.write self.nextAttachment replacement
    nextAttachment := self.nextAttachment + 1
    pages := self.pages.write self.nextPage { rendererObject := self.textureOf pngName }
    nextPage := self.nextPage + 1
    _equipMap := self._equipMap.set attachmentName
      { pageState := true, pageAttachment := some self.nextAttachment } }

/-- The renderer after a repeated equip (lines 356-392): the page at address `page`
holds the texture of `pngName` and the attachment at address `p` is rewritten to
`attachment`. -/
def SkeletonRenderer.afterRetexture (self : SkeletonRenderer) (pngName : String)
    (page p : Nat) (attachment : spAttachment) : SkeletonRenderer :=
  { self with
    pages := self.pages.write page { rendererObject := self.textureOf pngName }
    attachments := self.attachments.write p attachment }

/-- The renderer an operation left, or `fallback` when the operation faulted. -/
def resultOr (fallback : SkeletonRenderer) (r : Except Fault SkeletonRenderer) :
    SkeletonRenderer :=
  match r with
  | .ok s => s
  | .error _ => fallback

/-- The sample renderer after `setAttachmentPng("arm", "img/hat.png")`. -/
def sampleEquipped : SkeletonRenderer :=
  resultOr sampleRenderer (sampleRenderer.setAttachmentPng "arm" "img/hat.png")

/-- The sample renderer after the same equip a second time. -/
def sampleEquippedTwice : SkeletonRenderer :=
  resultOr sampleRenderer (sampleEquipped.setAttachmentPngs "arm" ["img/hat.png"])

/-- The sample renderer with a skeleton in which both slots show the atlas region
`arm` (two attachments on the same image). -/
def twoArmRenderer : SkeletonRenderer :=
  { sampleRenderer with
    attachments := fun p =>
      if p = 1 then some (sampleRegion "arm2" "arm" 0) else sampleRenderer.attachments p }

/-- The two-arm renderer after `setAttachmentPng("arm", "img/hat.png")`. -/
def twoArmEquipped : SkeletonRenderer :=
  resultOr twoArmRenderer (twoArmRenderer.setAttachmentPng "arm" "img/hat.png")

/-- The sample renderer with a skeleton of slot 0 alone. -/
def oneArmRenderer : SkeletonRenderer :=
  { sampleRenderer with drawOrder := [sampleSlot0] }

/-- The one-arm renderer after `setAttachmentPng("arm", "img/hat.png")`. -/
def oneArmEquipped : SkeletonRenderer :=
  resultOr oneArmRenderer (oneArmRenderer.setAttachmentPng "arm" "img/hat.png")

/-- The equipped one-arm renderer after `reset()`. -/
def oneArmEquippedReset : SkeletonRenderer :=
  resultOr oneArmEquipped oneArmEquipped.resetAll

/-- The pointers `reset` follows from a slot are valid: a non-null attachment pointer
is live, and a region attachment has its atlas region. -/
def SkeletonRenderer.slotResettable (self : SkeletonRenderer) (slot : spSlot) : Prop :=
  ∀ q, slot.attachment = some q →
    ∃ attachment, self.attachments q = some attachment ∧
      (attachment.type = .SP_ATTACHMENT_REGION → attachment.rendererObject.isSome = true)

/-! ## Construction -/

/-- Modelled from the spec: the skeleton instance that `spSkeleton_create` of the
Spine runtime, which is not among the sources, builds for skeleton data. -/
structure spSkeleton where
  drawOrder : List spSlot
  slotsOrder : List Nat
  worldVertices : spSlot → Nat → ℚ
  r : ℚ
  g : ℚ
  b : ℚ
  a : ℚ
  time : ℚ
  attachmentForSlotIndex : Nat → String → Option Nat

/-- The method `SkeletonRenderer::setSkeletonData` (lines 81-84); `skeleton` is the
instance `spSkeleton_create(skeletonData)` returns. -/
def SkeletonRenderer.setSkeletonData (self : SkeletonRenderer) (skeleton : spSkeleton)
    (ownsSkeletonData : Bool) : SkeletonRenderer :=
  { self with
    drawOrder := skeleton.drawOrder
    slotsOrder := skeleton.slotsOrder
    worldVertices := skeleton.worldVertices
    skeletonR := skeleton.r
    skeletonG := skeleton.g
    skeletonB := skeleton.b
    skeletonA := skeleton.a
    time := skeleton.time
    attachmentForSlotIndex := skeleton.attachmentForSlotIndex
    _ownsSkeletonData := ownsSkeletonData }

/-- The method `SkeletonRenderer::initWithData` (lines 119-123). -/
def SkeletonRenderer.initWithData (self : SkeletonRenderer) (skeleton : spSkeleton)
    (ownsSkeletonData : Bool) : SkeletonRenderer :=
  (self.setSkeletonData skeleton ownsSkeletonData).initializeNode

/-- The method `SkeletonRenderer::initWithFile` with an atlas (lines 125-136);
`skeleton` is the instance created for the skeleton data read from the file with
the loader's scale set to `scale`. -/
def SkeletonRenderer.initWithFile (self : SkeletonRenderer) (skeleton : spSkeleton)
    (scale : ℚ) : SkeletonRenderer :=
  let self1 := { self with _scale := scale }
  (self1.setSkeletonData skeleton true).initializeNode

/-- The method `SkeletonRenderer::initWithFile` with an atlas file (lines 138-152);
`atlas` is the address of the atlas created from the file. -/
def SkeletonRenderer.initWithAtlasFile (self : SkeletonRenderer) (atlas : Nat)
    (skeleton : spSkeleton) (scale : ℚ) : SkeletonRenderer :=
  let self1 := { self with _atlas := some atlas }
  let self2 := { self1 with _scale := scale }
  (self2.setSkeletonData skeleton true).initializeNode

/-- The method `SkeletonRenderer::createWithData` (lines 46-50); `node` is the newly
allocated object before the constructor body runs: its map members are empty and
its plain members hold whatever the allocation left. -/
def SkeletonRenderer.createWithData (node : SkeletonRenderer) (skeleton : spSkeleton)
    (ownsSkeletonData : Bool) : SkeletonRenderer :=
  node.initWithData skeleton ownsSkeletonData

/-- The method `SkeletonRenderer::createWithFile` with an atlas (lines 52-56). -/
def SkeletonRenderer.createWithFile (node : SkeletonRenderer) (skeleton : spSkeleton)
    (scale : ℚ) : SkeletonRenderer :=
  node.initWithFile skeleton scale

/-- The method `SkeletonRenderer::createWithFile` with an atlas file (lines 58-62). -/
def SkeletonRenderer.createWithAtlasFile (node : SkeletonRenderer) (atlas : Nat)
    (skeleton : spSkeleton) (scale : ℚ) : SkeletonRenderer :=
  node.initWithAtlasFile atlas skeleton scale

/-! ## getBoundingBox -/

/-- The cocos2d-x `Rect`: origin and size. -/
structure Rect where
  x : ℚ
  y : ℚ
  width : ℚ
  height : ℚ
  deriving DecidableEq

/-- The constant `FLT_MAX` of `<cfloat>`: the largest finite `float`. -/
def FLT_MAX : ℚ := (2 - 1 / 2 ^ 23) * 2 ^ 127

/-- The constant `FLT_MIN` of `<cfloat>`: the smallest positive normalised `float`. -/
def FLT_MIN : ℚ := 1 / 2 ^ 126

/-- The locals `minX, minY, maxX, maxY` of `getBoundingBox`. -/
structure Bounds where
  minX : ℚ
  minY : ℚ
  maxX : ℚ
  maxY : ℚ
  deriving DecidableEq

/-- The vertex loop of `getBoundingBox` (lines 636-642) from index `ii`, with at most
`fuel` iterations; `vertices i` is `_worldVertices[i]`. -/
def boundsLoop (vertices : Nat → ℚ) (scaleX scaleY : ℚ) (verticesCount : Nat) :
    Nat → Nat → Bounds → Bounds
  | 0, _, bounds => bounds
  | fuel + 1, ii, bounds =>
    if ii < verticesCount then
      let x := vertices ii * scaleX
      let y := vertices (ii + 1) * scaleY
      boundsLoop vertices scaleX scaleY verticesCount fuel (ii + 2)
        { minX := min bounds.minX x
          minY := min bounds.minY y
          maxX := max bounds.maxX x
          maxY := max bounds.maxY y }
    else bounds

/-- One iteration of the slot loop of `getBoundingBox` (lines 619-642). -/
def SkeletonRenderer.boundsSlot (self : SkeletonRenderer) (slot : spSlot) (bounds : Bounds) :
    Except Fault Bounds :=
  match slot.attachment with
  | none => .ok bounds
  | some p =>
    match self.attachments.deref p with
    | .error e => .error e
    | .ok attachment =>
      let verticesCount : Option Nat :=
        match attachment.type with
        | .SP_ATTACHMENT_REGION => some 8
        | .SP_ATTACHMENT_MESH => some attachment.verticesCount
        | .SP_ATTACHMENT_SKINNED_MESH => some attachment.uvsCount
        | _ => none
      match verticesCount with
      | none => .ok bounds
      | some count =>
        .ok (boundsLoop (self.worldVertices slot) self.scaleX self.scaleY count count 0 bounds)

/-- The slot loop of `getBoundingBox` over the slots still to be visited. -/
def SkeletonRenderer.boundsSlots (self : SkeletonRenderer) :
    List spSlot → Bounds → Except Fault Bounds
  | [], bounds => .ok bounds
  | slot :: rest, bounds =>
    match self.boundsSlot slot bounds with
    | .error e => .error e
    | .ok bounds1 => self.boundsSlots rest bounds1

/-- The array `_skeleton->slots[0 .. slotsCount)`. -/
def SkeletonRenderer.slots (self : SkeletonRenderer) : List spSlot :=
  self.slotsOrder.filterMap (fun k => self.drawOrder.get? k)

/-- The method `SkeletonRenderer::getBoundingBox` (lines 615-646). -/
def SkeletonRenderer.getBoundingBox (self : SkeletonRenderer) : Except Fault Rect :=
  match self.boundsSlots self.slots
      { minX := FLT_MAX, minY := FLT_MAX, maxX := FLT_MIN, maxY := FLT_MIN } with
  | .error e => .error e
  | .ok bounds =>
    .ok { x := self.positionX + bounds.minX
          y := self.positionY + bounds.minY
          width := bounds.maxX - bounds.minX
          height := bounds.maxY - bounds.minY }

/-! ## Further sample renderers -/

/-- The items a draw added to the batch; none when the draw faulted. -/
def drawnItems (r : Except Fault (SkeletonRenderer × List DrawEvent)) : List BatchAdd :=
  match r with
  | .ok (_, events) => addedItems events
  | .error _ => []

/-- The sample renderer after `setColorForAttachment("arm", red)`. -/
def sampleColored : SkeletonRenderer :=
  sampleRenderer.setColorForAttachment "arm" { r := 255, g := 0, b := 0, a := 255 }

/-- The equipped sample renderer after `reset("arm")`. -/
def sampleEquippedReset : SkeletonRenderer :=
  resultOr sampleEquipped (sampleEquipped.reset "arm")

/-- The sample renderer with an engine that can also load `img/cap.png`, an image
whose raw name `cap` is no attachment of the skeleton. -/
def capRenderer : SkeletonRenderer :=
  { sampleRenderer with
    textureOf := fun file =>
      if file = "img/cap.png" then some ⟨10, 20⟩ else sampleRenderer.textureOf file }

/-- The skeleton of the sample renderer. -/
def sampleSkeleton : spSkeleton :=
  { drawOrder := sampleRenderer.drawOrder
    slotsOrder := sampleRenderer.slotsOrder
    worldVertices := sampleRenderer.worldVertices
    r := 1
    g := 1
    b := 1
    a := 1
    time := 0
    attachmentForSlotIndex := sampleRenderer.attachmentForSlotIndex }

/-- A newly allocated renderer object in the memory and engine of the sample, before
its constructor body runs: the maps are empty and the member `_scale`, like the
other plain members, holds the value `junk` the allocation left. -/
def newNode (junk : ℚ) : SkeletonRenderer :=
  { sampleRenderer with
    drawOrder := []
    slotsOrder := []
    _timeScale := junk
    _scale := junk }

/-- The renderer `createWithData` makes for the sample skeleton from a new object
whose `_scale` holds `junk`, after `setAttachmentPng("arm", "img/hat.png")`. -/
def dataEquipped (junk : ℚ) : SkeletonRenderer :=
  resultOr sampleRenderer
    (((newNode junk).createWithData sampleSkeleton true).setAttachmentPng "arm" "img/hat.png")

/-- The renderer `createWithFile` makes for the sample skeleton with scale `scale`,
after `setAttachmentPng("arm", "img/hat.png")`. -/
def fileEquipped (junk scale : ℚ) : SkeletonRenderer :=
  resultOr sampleRenderer
    (((newNode junk).createWithFile sampleSkeleton scale).setAttachmentPng "arm"
      "img/hat.png")

/-- A renderer of one slot whose region attachment lies left of and below the
origin: its four world vertices are (-2,-2), (-1,-2), (-1,-1), (-2,-1). -/
def negativeRenderer : SkeletonRenderer :=
  { sampleRenderer with
    drawOrder := [sampleSlot0]
    slotsOrder := [0]
    worldVertices := fun _ i =>
      if i = 0 then -2 else if i = 1 then -2
      else if i = 2 then -1 else if i = 3 then -2
      else if i = 4 then -1 else if i = 5 then -1
      else if i = 6 then -2 else -1 }

/-! ## Theorems -/

/-- C3: the blend function `drawSkeleton` selects depends on the slot's blend mode,
the premultiplied-alpha flag and the node's blend function only: additive gives
(`GL_ONE` if premultiplied else `GL_SRC_ALPHA`, `GL_ONE`), multiply gives
(`GL_DST_COLOR`, `GL_ONE_MINUS_SRC_ALPHA`), screen gives (`GL_ONE`,
`GL_ONE_MINUS_SRC_COLOR`), every other mode gives the node's own blend function,
which is `ALPHA_PREMULTIPLIED` after `initialize` until `setBlendFunc` replaces it;
and the `GL::blendFunc` event emitted for a slot carries exactly that pair. -/
theorem blendFuncFor_table (self : SkeletonRenderer) (bf : BlendFunc) (slot : spSlot)
    (texture : Texture2D) (r g b a : ℚ) (blendMode : Int) :
    self.blendFuncFor .SP_BLEND_MODE_ADDITIVE =
        (if self.isOpacityModifyRGB then GL_ONE else GL_SRC_ALPHA, GL_ONE) ∧
      self.blendFuncFor .SP_BLEND_MODE_MULTIPLY = (GL_DST_COLOR, GL_ONE_MINUS_SRC_ALPHA) ∧
      self.blendFuncFor .SP_BLEND_MODE_SCREEN = (GL_ONE, GL_ONE_MINUS_SRC_COLOR) ∧
      (∀ mode, mode ≠ .SP_BLEND_MODE_ADDITIVE → mode ≠ .SP_BLEND_MODE_MULTIPLY →
        mode ≠ .SP_BLEND_MODE_SCREEN →
        self.blendFuncFor mode = (self.getBlendFunc.src, self.getBlendFunc.dst)) ∧
      self.initializeNode.getBlendFunc = BlendFunc.ALPHA_PREMULTIPLIED ∧
      self.initializeNode.isOpacityModifyRGB = true ∧
      (self.setBlendFunc bf).getBlendFunc = bf ∧
      (∀ src dst, DrawEvent.blendFunc src dst ∈
          (self.drawTextured slot texture r g b a blendMode).1 →
        (src, dst) = self.blendFuncFor slot.blendMode) := by
  refine ⟨rfl, rfl, rfl, ?_, rfl, rfl, rfl, ?_⟩
  · intro mode h1 h2 h3
    cases mode <;> first | rfl | contradiction
  · intro src dst h
    unfold SkeletonRenderer.drawTextured at h
    by_cases hb : slot.blendMode.toInt ≠ blendMode
    · simp only [hb, ne_eq, not_false_eq_true, ↓reduceIte, List.mem_cons, DrawEvent.blendFunc.injEq,
        List.mem_singleton, reduceCtorEq, false_or, or_false, List.not_mem_nil] at h
      rw [h.1, h.2]
    · simp only [hb, ↓reduceIte, List.mem_singleton, reduceCtorEq] at h

/-- C7: after `setVisibilityForAttachment(N, v)` the query `isAttachmentVisible(N)`
returns `v`, whether or not `N` already had an entry in the properties map. -/
theorem isAttachmentVisible_setVisibilityForAttachment (self : SkeletonRenderer)
    (N : String) (v : Bool) :
    ((self.setVisibilityForAttachment N v).isAttachmentVisible N).1 = v := by
  unfold SkeletonRenderer.setVisibilityForAttachment SkeletonRenderer.isAttachmentVisible
  cases h : self._propertiesMap N <;> simp [StdMap.set]

/-- C8: `isAttachmentVisible(N)` returns true for a name without an entry in the
properties map, in particular whenever the map is empty, and the query leaves the
renderer (so every entry of the map) as it was. -/
theorem isAttachmentVisible_default (self : SkeletonRenderer) (N : String) :
    (self._propertiesMap N = none → (self.isAttachmentVisible N).1 = true) ∧
      (self._propertiesMap = StdMap.empty → (self.isAttachmentVisible N).1 = true) ∧
      (self.isAttachmentVisible N).2 = self := by
  unfold SkeletonRenderer.isAttachmentVisible
  refine ⟨?_, ?_, ?_⟩
  · intro h
    simp [h]
  · intro h
    simp [h, StdMap.empty]
  · cases h : self._propertiesMap N <;> rfl

/-- The two lookup loops are the same function. -/
theorem getAttachmentOffsetFrom_eq (self : SkeletonRenderer) (name : String) (fuel i : Nat) :
    self.getAttachmentOffsetFrom name fuel i = self.getAttachmentFrom name fuel i := by
  induction fuel generalizing i with
  | zero => rfl
  | succ n ih =>
    unfold SkeletonRenderer.getAttachmentOffsetFrom SkeletonRenderer.getAttachmentFrom
    cases hlook : self.attachmentForSlotIndex i name with
    | none => exact ih (i + 1)
    | some p =>
      cases hderef : self.attachments.deref p with
      | error e => simp only [hderef]
      | ok attachment =>
        by_cases ht : attachment.type = .SP_ATTACHMENT_REGION
        · simp only [hderef, ht, ↓reduceIte]
        · simp only [hderef, ht, ↓reduceIte]
          exact ih (i + 1)

/-- The lookup loop from index `i` with `fuel` iterations left: when every
attachment the skeleton's lookup yields is live, the loop returns, and it returns
the first region attachment at an index in `[i, i + fuel)`, or null when there is
none. -/
theorem getAttachmentFrom_spec (self : SkeletonRenderer) (name : String)
    (hlive : ∀ j p, self.attachmentForSlotIndex j name = some p →
      (self.attachments p).isSome = true) (fuel i : Nat) :
    ∃ r, self.getAttachmentFrom name fuel i = .ok r ∧
      (∀ p, r = some p → ∃ k, i ≤ k ∧ k < i + fuel ∧
        self.attachmentForSlotIndex k name = some p ∧ self.regionAt name k ∧
        ∀ j, i ≤ j → j < k → ¬ self.regionAt name j) ∧
      (r = none → ∀ j, i ≤ j → j < i + fuel → ¬ self.regionAt name j) := by
  induction fuel generalizing i with
  | zero =>
    refine ⟨none, rfl, ?_, ?_⟩
    · intro p hp
      cases hp
    · intro _ j h1 h2
      omega
  | succ n ih =>
    unfold SkeletonRenderer.getAttachmentFrom
    obtain ⟨r, hr, hsome, hnone⟩ := ih (i + 1)
    cases hlook : self.attachmentForSlotIndex i name with
    | none =>
      have hi : ¬ self.regionAt name i := by
        rintro ⟨p, a, h1, _, _⟩
        rw [hlook] at h1
        cases h1
      refine ⟨r, hr, ?_, ?_⟩
      · intro p hp
        obtain ⟨k, hk1, hk2, hk3, hk4, hk5⟩ := hsome p hp
        refine ⟨k, by omega, by omega, hk3, hk4, ?_⟩
        intro j hj1 hj2
        by_cases hji : j = i
        · rw [hji]
          exact hi
        · exact hk5 j (by omega) hj2
      · intro hn j hj1 hj2
        by_cases hji : j = i
        · rw [hji]
          exact hi
        · exact hnone hn j (by omega) (by omega)
    | some p =>
      have hp := hlive i p hlook
      cases hheap : self.attachments p with
      | none =>
        rw [hheap] at hp
        cases hp
      | some attachment =>
        have hderef : self.attachments.deref p = .ok attachment := by
          unfold Heap.deref
          rw [hheap]
        simp only [hderef]
        by_cases ht : attachment.type = .SP_ATTACHMENT_REGION
        · simp only [ht, ↓reduceIte]
          refine ⟨some p, rfl, ?_, ?_⟩
          · intro q hq
            cases hq
            refine ⟨i, le_refl i, by omega, hlook, ⟨p, attachment, hlook, hheap, ht⟩, ?_⟩
            intro j hj1 hj2
            omega
          · intro hn
            cases hn
        · simp only [ht, ↓reduceIte]
          have hi : ¬ self.regionAt name i := by
            rintro ⟨q, a, h1, h2, h3⟩
            rw [hlook] at h1
            cases h1
            rw [hheap] at h2
            cases h2
            exact ht h3
          refine ⟨r, hr, ?_, ?_⟩
          · intro q hq
            obtain ⟨k, hk1, hk2, hk3, hk4, hk5⟩ := hsome q hq
            refine ⟨k, by omega, by omega, hk3, hk4, ?_⟩
            intro j hj1 hj2
            by_cases hji : j = i
            · rw [hji]
              exact hi
            · exact hk5 j (by omega) hj2
          · intro hn j hj1 hj2
            by_cases hji : j = i
            · rw [hji]
              exact hi
            · exact hnone hn j (by omega) (by omega)

/-- C10: when the attachments the skeleton's lookup yields are live,
`getAttachment(name)` returns, and it returns the attachment found at the lowest
slot index `k < slotsCount` whose lookup of `name` is non-null and of type region
(no lower index has one, so a non-region attachment there is skipped); the result
is null exactly when no slot index yields a region attachment of that name; and
`getAttachmentOffset` returns the same attachment. -/
theorem getAttachment_lowest_region (self : SkeletonRenderer) (name : String)
    (hlive : ∀ j p, self.attachmentForSlotIndex j name = some p →
      (self.attachments p).isSome = true) :
    ∃ r, self.getAttachment name = .ok r ∧
      (∀ p, r = some p → ∃ k, k < self.slotsCount ∧
        self.attachmentForSlotIndex k name = some p ∧ self.regionAt name k ∧
        ∀ j, j < k → ¬ self.regionAt name j) ∧
      (r = none ↔ ∀ j, j < self.slotsCount → ¬ self.regionAt name j) ∧
      self.getAttachmentOffset name = .ok r := by
  obtain ⟨r, hr, hsome, hnone⟩ := getAttachmentFrom_spec self name hlive self.slotsCount 0
  refine ⟨r, hr, ?_, ?_, ?_⟩
  · intro p hp
    obtain ⟨k, _, hk2, hk3, hk4, hk5⟩ := hsome p hp
    exact ⟨k, by omega, hk3, hk4, fun j hj => hk5 j (Nat.zero_le j) hj⟩
  · constructor
    · intro hn j hj
      exact hnone hn j (Nat.zero_le j) (by omega)
    · intro hall
      cases hrp : r with
      | none => rfl
      | some p =>
        obtain ⟨k, _, hk2, _, hk4, _⟩ := hsome p hrp
        exact absurd hk4 (hall k (by omega))
  · unfold SkeletonRenderer.getAttachmentOffset
    rw [getAttachmentOffsetFrom_eq]
    exact hr

theorem sameShape_refl (h : Heap spAttachment) : sameShape h h := fun _ => rfl

theorem sameShape_write (h h0 : Heap spAttachment) (p : Nat) (a a1 : spAttachment)
    (hs : sameShape h h0) (hp : h p = some a) (ht : a1.type = a.type)
    (hr : a1.rendererObject = a.rendererObject) : sameShape (h.write p a1) h0 := by
  intro q
  unfold Heap.write
  by_cases hq : q = p
  · simp only [hq, ↓reduceIte, Option.map_some']
    rw [← hs p, hp, Option.map_some', ht, hr]
  · simp only [hq, ↓reduceIte]
    exact hs q

theorem sameShape_lookup (h h0 : Heap spAttachment) (p : Nat) (a0 : spAttachment)
    (hs : sameShape h h0) (hp : h0 p = some a0) :
    ∃ a, h p = some a ∧ a.type = a0.type ∧ a.rendererObject = a0.rendererObject := by
  have := hs p
  rw [hp] at this
  cases hh : h p with
  | none =>
    rw [hh] at this
    cases this
  | some a =>
    rw [hh] at this
    simp only [Option.map_some', Option.some.injEq, Prod.mk.injEq] at this
    exact ⟨a, rfl, this.1, this.2⟩

theorem getTexture_congr (self : SkeletonRenderer) (a a0 : spAttachment)
    (hr : a.rendererObject = a0.rendererObject) : self.getTexture a = self.getTexture a0 := by
  unfold SkeletonRenderer.getTexture
  rw [hr]

theorem blendCode_ne (prev : Option spBlendMode) (mode : spBlendMode) :
    mode.toInt ≠ blendCode prev ↔ ¬ prev = some mode := by
  cases prev with
  | none => cases mode <;> simp [blendCode, spBlendMode.toInt]
  | some m => cases m <;> cases mode <;> simp [blendCode, spBlendMode.toInt]

/-- What the `if (texture)` block emits: a flush and a blend function when the blend
mode changes, then the add of an item of this slot. -/
theorem drawTextured_spec (self : SkeletonRenderer) (slot : spSlot) (texture : Texture2D)
    (r g b a : ℚ) (prev : Option spBlendMode) :
    ∃ item : BatchAdd, item.slot = slot ∧
      (self.drawTextured slot texture r g b a (blendCode prev)).1 =
        self.expectedEvents prev [item] ∧
      (self.drawTextured slot texture r g b a (blendCode prev)).2 =
        blendCode (some slot.blendMode) := by
  have hslot : (self.batchItem slot texture r g b a).slot = slot := rfl
  unfold SkeletonRenderer.drawTextured
  by_cases hb : prev = some slot.blendMode
  · have hc : ¬ slot.blendMode.toInt ≠ blendCode prev := by
      rw [blendCode_ne]
      exact fun h => h hb
    simp only [hc, ↓reduceIte]
    refine ⟨self.batchItem slot texture r g b a, rfl, ?_, ?_⟩
    · simp only [SkeletonRenderer.expectedEvents, hslot, hb, ↓reduceIte, List.nil_append]
    · rw [hb]
  · have hc : slot.blendMode.toInt ≠ blendCode prev := (blendCode_ne prev _).2 hb
    simp only [hc, ↓reduceIte, ne_eq, not_false_eq_true]
    refine ⟨self.batchItem slot texture r g b a, rfl, ?_, rfl⟩
    simp only [SkeletonRenderer.expectedEvents, hslot, hb, ↓reduceIte, List.cons_append,
      List.nil_append]

/-- The shared tail of the attachment cases, for an attachment whose texture lookup
succeeds: nothing is emitted for a null texture, otherwise the slot is added. -/
theorem drawAttachment_spec (self : SkeletonRenderer) (slot : spSlot) (attachment : spAttachment)
    (prev : Option spBlendMode) (heap : Heap spAttachment) (t : Option Texture2D)
    (ht : self.getTexture attachment = .ok t) :
    ∃ events bm, self.drawAttachment slot attachment (blendCode prev) heap =
        .ok (events, bm, heap) ∧
      ((t = none ∧ events = [] ∧ bm = blendCode prev) ∨
        (t.isSome = true ∧ ∃ item : BatchAdd, item.slot = slot ∧
          events = self.expectedEvents prev [item] ∧ bm = blendCode (some slot.blendMode))) := by
  unfold SkeletonRenderer.drawAttachment
  rw [ht]
  cases t with
  | none => exact ⟨[], blendCode prev, rfl, Or.inl ⟨rfl, rfl, rfl⟩⟩
  | some texture =>
    obtain ⟨item, h1, h2, h3⟩ :=
      drawTextured_spec self slot texture attachment.r attachment.g attachment.b attachment.a prev
    exact ⟨_, _, rfl, Or.inr ⟨rfl, item, h1, h2, h3⟩⟩

/-- One iteration of the slot loop on a ready slot: it returns, keeps the shape of
the attachment heap, and adds the slot exactly when the slot is to be batched. -/
theorem drawSlot_spec (self : SkeletonRenderer) (slot : spSlot) (prev : Option spBlendMode)
    (heap : Heap spAttachment) (hs : sameShape heap self.attachments)
    (hr : self.slotReady slot = true) :
    ∃ events bm heap1, self.drawSlot slot (blendCode prev) heap = .ok (events, bm, heap1) ∧
      sameShape heap1 self.attachments ∧
      ((self.isBatched slot = false ∧ events = [] ∧ bm = blendCode prev) ∨
        (self.isBatched slot = true ∧ ∃ item : BatchAdd, item.slot = slot ∧
          events = self.expectedEvents prev [item] ∧ bm = blendCode (some slot.blendMode))) := by
  unfold SkeletonRenderer.drawSlot
  cases hatt : slot.attachment with
  | none =>
    refine ⟨[], blendCode prev, heap, rfl, hs, Or.inl ⟨?_, rfl, rfl⟩⟩
    simp [SkeletonRenderer.isBatched, SkeletonRenderer.hasTexturedAttachment, hatt]
  | some p =>
    cases h0 : self.attachments p with
    | none => simp [SkeletonRenderer.slotReady, hatt, h0] at hr
    | some a0 =>
      obtain ⟨a, ha, hty, hro⟩ := sameShape_lookup heap self.attachments p a0 hs h0
      have hderef : heap.deref p = .ok a := by
        unfold Heap.deref
        rw [ha]
      simp only [hderef]
      have htex : self.getTexture a = self.getTexture a0 := getTexture_congr self a a0 hro
      cases hk : a0.type with
      | SP_ATTACHMENT_BOUNDING_BOX =>
        rw [hk] at hty
        simp only [hty]
        refine ⟨[], blendCode prev, heap, rfl, hs, Or.inl ⟨?_, rfl, rfl⟩⟩
        simp [SkeletonRenderer.isBatched, SkeletonRenderer.hasTexturedAttachment, hatt, h0, hk]
      | SP_ATTACHMENT_MESH =>
        rw [hk] at hty
        simp only [hty]
        cases hg : self.getTexture a0 with
        | error e => simp [SkeletonRenderer.slotReady, hatt, h0, hk, hg] at hr
        | ok t =>
          obtain ⟨events, bm, h1, h2⟩ :=
            drawAttachment_spec self slot a prev heap t (htex.trans hg)
          refine ⟨events, bm, heap, h1, hs, ?_⟩
          have hb : self.isBatched slot = t.isSome := by
            cases t <;>
              simp [SkeletonRenderer.isBatched, SkeletonRenderer.hasTexturedAttachment,
                SkeletonRenderer.isHidden, SkeletonRenderer.regionNameOf, hatt, h0, hk, hg]
          rcases h2 with ⟨ht, h3⟩ | ⟨ht, h3⟩
          · exact Or.inl ⟨by rw [hb, ht]; rfl, h3⟩
          · exact Or.inr ⟨by rw [hb, ht], h3⟩
      | SP_ATTACHMENT_SKINNED_MESH =>
        rw [hk] at hty
        simp only [hty]
        cases hg : self.getTexture a0 with
        | error e => simp [SkeletonRenderer.slotReady, hatt, h0, hk, hg] at hr
        | ok t =>
          obtain ⟨events, bm, h1, h2⟩ :=
            drawAttachment_spec self slot a prev heap t (htex.trans hg)
          refine ⟨events, bm, heap, h1, hs, ?_⟩
          have hb : self.isBatched slot = t.isSome := by
            cases t <;>
              simp [SkeletonRenderer.isBatched, SkeletonRenderer.hasTexturedAttachment,
                SkeletonRenderer.isHidden, SkeletonRenderer.regionNameOf, hatt, h0, hk, hg]
          rcases h2 with ⟨ht, h3⟩ | ⟨ht, h3⟩
          · exact Or.inl ⟨by rw [hb, ht]; rfl, h3⟩
          · exact Or.inr ⟨by rw [hb, ht], h3⟩
      | SP_ATTACHMENT_REGION =>
        rw [hk] at hty
        simp only [hty]
        cases hg : self.getTexture a0 with
        | error e => simp [SkeletonRenderer.slotReady, hatt, h0, hk, hg] at hr
        | ok t =>
          cases hreg : a0.rendererObject with
          | none => simp [SkeletonRenderer.getTexture, hreg] at hg
          | some region =>
            have hname : getCharacterName a = .ok region.name := by
              unfold getCharacterName
              rw [hro, hreg]
            simp only [hname]
            have htextured : self.hasTexturedAttachment slot = t.isSome := by
              cases t <;> simp [SkeletonRenderer.hasTexturedAttachment, hatt, h0, hk, hg]
            have hrn : self.regionNameOf slot = some region.name := by
              simp [SkeletonRenderer.regionNameOf, hatt, h0, hk, hreg]
            cases hprop : self._propertiesMap region.name with
            | none =>
              obtain ⟨events, bm, h1, h2⟩ :=
                drawAttachment_spec self slot a prev heap t (htex.trans hg)
              refine ⟨events, bm, heap, h1, hs, ?_⟩
              have hb : self.isBatched slot = t.isSome := by
                simp [SkeletonRenderer.isBatched, SkeletonRenderer.isHidden, hrn, hprop, htextured]
              rcases h2 with ⟨ht, h3⟩ | ⟨ht, h3⟩
              · exact Or.inl ⟨by rw [hb, ht]; rfl, h3⟩
              · exact Or.inr ⟨by rw [hb, ht], h3⟩
            | some prop =>
              by_cases hv : prop.visibility = true
              · have hb : self.isBatched slot = t.isSome := by
                  simp [SkeletonRenderer.isBatched, SkeletonRenderer.isHidden, hrn, hprop,
                    htextured, hv]
                simp only [hv, Bool.not_true, Bool.false_eq_true, ↓reduceIte]
                by_cases hc : prop.isColorSet = true
                · simp only [hc, ↓reduceIte]
                  have htex1 : self.getTexture
                      { a with type := .SP_ATTACHMENT_REGION, r := (prop.r : ℚ), g := (prop.g : ℚ),
                               b := (prop.b : ℚ) } = .ok t := by
                    rw [← hg, ← htex]
                    exact getTexture_congr self _ a rfl
                  obtain ⟨events, bm, h1, h2⟩ :=
                    drawAttachment_spec self slot
                      { a with type := .SP_ATTACHMENT_REGION, r := (prop.r : ℚ), g := (prop.g : ℚ),
                               b := (prop.b : ℚ) } prev
                      (heap.write p
                        { a with type := .SP_ATTACHMENT_REGION, r := (prop.r : ℚ),
                                 g := (prop.g : ℚ), b := (prop.b : ℚ) }) t htex1
                  refine ⟨events, bm, _, h1, sameShape_write heap _ p a _ hs ha hty.symm rfl, ?_⟩
                  rcases h2 with ⟨ht, h3⟩ | ⟨ht, h3⟩
                  · exact Or.inl ⟨by rw [hb, ht]; rfl, h3⟩
                  · exact Or.inr ⟨by rw [hb, ht], h3⟩
                · simp only [hc, Bool.false_eq_true, ↓reduceIte]
                  obtain ⟨events, bm, h1, h2⟩ :=
                    drawAttachment_spec self slot a prev heap t (htex.trans hg)
                  refine ⟨events, bm, heap, h1, hs, ?_⟩
                  rcases h2 with ⟨ht, h3⟩ | ⟨ht, h3⟩
                  · exact Or.inl ⟨by rw [hb, ht]; rfl, h3⟩
                  · exact Or.inr ⟨by rw [hb, ht], h3⟩
              · have hv2 : prop.visibility = false := by
                  cases h : prop.visibility
                  · rfl
                  · exact absurd h hv
                simp only [hv2, Bool.not_false, ↓reduceIte]
                refine ⟨[], blendCode prev, heap, rfl, hs, Or.inl ⟨?_, rfl, rfl⟩⟩
                simp [SkeletonRenderer.isBatched, SkeletonRenderer.isHidden, hrn, hprop, hv2]

theorem addedItems_append (xs ys : List DrawEvent) :
    addedItems (xs ++ ys) = addedItems xs ++ addedItems ys := by
  induction xs with
  | nil => rfl
  | cons e rest ih =>
    cases e <;> simp [addedItems, ih]

theorem addedItems_expectedEvents (self : SkeletonRenderer) (prev : Option spBlendMode)
    (items : List BatchAdd) : addedItems (self.expectedEvents prev items) = items := by
  induction items generalizing prev with
  | nil => rfl
  | cons item rest ih =>
    unfold SkeletonRenderer.expectedEvents
    by_cases h : prev = some item.slot.blendMode
    · simp [h, addedItems, ih]
    · simp [h, addedItems, ih]

theorem expectedEvents_cons (self : SkeletonRenderer) (prev : Option spBlendMode)
    (item : BatchAdd) (rest : List BatchAdd) :
    self.expectedEvents prev (item :: rest) =
      self.expectedEvents prev [item] ++ self.expectedEvents (some item.slot.blendMode) rest := by
  simp [SkeletonRenderer.expectedEvents]

theorem expectedEvents_congr (s1 s2 : SkeletonRenderer)
    (h : ∀ mode, s1.blendFuncFor mode = s2.blendFuncFor mode) (prev : Option spBlendMode)
    (items : List BatchAdd) : s1.expectedEvents prev items = s2.expectedEvents prev items := by
  induction items generalizing prev with
  | nil => rfl
  | cons item rest ih =>
    unfold SkeletonRenderer.expectedEvents
    rw [h, ih]

/-- The slot loop on ready slots: it returns, the slots it adds are the slots to be
batched, in order, and its events are the prescribed ones for the items it adds. -/
theorem drawLoop_spec (self : SkeletonRenderer) (slots : List spSlot)
    (prev : Option spBlendMode) (heap : Heap spAttachment)
    (hs : sameShape heap self.attachments)
    (hr : ∀ slot ∈ slots, self.slotReady slot = true) :
    ∃ events heap1, self.drawLoop slots (blendCode prev) heap = .ok (events, heap1) ∧
      sameShape heap1 self.attachments ∧
      addedSlots events = slots.filter self.isBatched ∧
      events = self.expectedEvents prev (addedItems events) := by
  induction slots generalizing prev heap with
  | nil => exact ⟨[], heap, rfl, hs, rfl, rfl⟩
  | cons slot rest ih =>
    obtain ⟨events, bm, heap1, h1, hs1, hcase⟩ :=
      drawSlot_spec self slot prev heap hs (hr slot (List.mem_cons_self _ _))
    have hrest : ∀ s ∈ rest, self.slotReady s = true :=
      fun s hmem => hr s (List.mem_cons_of_mem _ hmem)
    unfold SkeletonRenderer.drawLoop
    rw [h1]
    rcases hcase with ⟨hb, he, hbm⟩ | ⟨hb, item, hitem, he, hbm⟩
    · obtain ⟨events1, heap2, h2, hs2, hadd, hexp⟩ := ih prev heap1 hs1 hrest
      rw [hbm]
      simp only [h2]
      refine ⟨events ++ events1, heap2, rfl, hs2, ?_, ?_⟩
      · rw [he, List.nil_append, hadd, List.filter_cons, hb]
        simp
      · rw [he, List.nil_append]
        exact hexp
    · obtain ⟨events1, heap2, h2, hs2, hadd, hexp⟩ :=
        ih (some slot.blendMode) heap1 hs1 hrest
      rw [hbm]
      simp only [h2]
      refine ⟨events ++ events1, heap2, rfl, hs2, ?_, ?_⟩
      · unfold addedSlots at hadd ⊢
        rw [addedItems_append, he, addedItems_expectedEvents, List.map_append, hadd,
          List.filter_cons, hb]
        simp [hitem]
      · have hcons := expectedEvents_cons self prev item (addedItems events1)
        rw [addedItems_append, he, addedItems_expectedEvents, List.singleton_append, hcons,
          hitem, ← hexp]

theorem unflushed_append_flush (pending : List BatchAdd) (events : List DrawEvent) :
    unflushed pending (events ++ [.flush]) = [] := by
  induction events generalizing pending with
  | nil => rfl
  | cons e rest ih =>
    cases e <;> simp [unflushed, ih]

theorem flushedBatches_concat (current : Option (GLenum × GLenum)) (pending : List BatchAdd)
    (events : List DrawEvent) :
    ((flushedBatches current pending (events ++ [.flush])).map (fun batch => batch.2)).flatten =
      pending ++ addedItems events := by
  induction events generalizing current pending with
  | nil => simp [flushedBatches, addedItems]
  | cons e rest ih =>
    cases e <;> simp [flushedBatches, addedItems, ih]

/-- Every batch flushed by the prescribed events holds items of one blend mode and is
flushed while the blend function of that mode is in force. -/
theorem flushedBatches_expectedEvents (self : SkeletonRenderer) (items : List BatchAdd)
    (prev : Option spBlendMode) (current : Option (GLenum × GLenum)) (pending : List BatchAdd)
    (hpending : ∀ item ∈ pending, prev = some item.slot.blendMode)
    (hcurrent : ∀ mode, prev = some mode → current = some (self.blendFuncFor mode)) :
    ∀ batch ∈ flushedBatches current pending (self.expectedEvents prev items ++ [.flush]),
      ∀ item ∈ batch.2, batch.1 = some (self.blendFuncFor item.slot.blendMode) ∧
        ∀ item2 ∈ batch.2, item2.slot.blendMode = item.slot.blendMode := by
  have hfirst : ∀ item ∈ pending, current = some (self.blendFuncFor item.slot.blendMode) ∧
      ∀ item2 ∈ pending, item2.slot.blendMode = item.slot.blendMode := by
    intro item hmem
    refine ⟨hcurrent _ (hpending item hmem), ?_⟩
    intro item2 hmem2
    have h1 := hpending item hmem
    have h2 := hpending item2 hmem2
    rw [h1] at h2
    exact (Option.some.inj h2).symm
  induction items generalizing prev current pending with
  | nil =>
    intro batch hb
    simp only [SkeletonRenderer.expectedEvents, List.nil_append, flushedBatches,
      List.mem_singleton] at hb
    rw [hb]
    exact hfirst
  | cons item rest ih =>
    unfold SkeletonRenderer.expectedEvents
    by_cases h : prev = some item.slot.blendMode
    · simp only [h, ↓reduceIte, List.nil_append, List.cons_append, flushedBatches]
      have hp : ∀ i ∈ pending ++ [item],
          some item.slot.blendMode = some i.slot.blendMode := by
        intro i hi
        rcases List.mem_append.1 hi with hi | hi
        · rw [← h]
          exact hpending i hi
        · rw [List.mem_singleton.1 hi]
      have hc : ∀ mode, some item.slot.blendMode = some mode →
          current = some (self.blendFuncFor mode) := by
        intro mode hm
        exact hcurrent mode (h.trans hm)
      apply ih (some item.slot.blendMode) current (pending ++ [item]) hp hc
      intro i hi
      refine ⟨hc _ (hp i hi), ?_⟩
      intro i2 hi2
      have h1 := hp i hi
      have h2 := hp i2 hi2
      rw [h1] at h2
      exact (Option.some.inj h2).symm
    · simp only [h, ↓reduceIte, List.cons_append, List.nil_append, flushedBatches,
        List.mem_cons]
      intro batch hb
      rcases hb with hb | hb
      · rw [hb]
        exact hfirst
      · have hp : ∀ i ∈ [item], some item.slot.blendMode = some i.slot.blendMode := by
          intro i hi
          rw [List.mem_singleton.1 hi]
        have hc : ∀ mode, some item.slot.blendMode = some mode →
            some ((self.blendFuncFor item.slot.blendMode).1,
              (self.blendFuncFor item.slot.blendMode).2) = some (self.blendFuncFor mode) := by
          intro mode hm
          rw [← Option.some.inj hm]
        refine ih (some item.slot.blendMode) _ [item] hp hc ?_ batch hb
        intro i hi
        refine ⟨hc _ (hp i hi), ?_⟩
        intro i2 hi2
        rw [List.mem_singleton.1 hi, List.mem_singleton.1 hi2]

theorem sampleRenderer_drawReady : sampleRenderer.drawReady := by
  intro slot hmem
  simp only [sampleRenderer, List.mem_cons, List.mem_singleton, List.not_mem_nil, or_false] at hmem
  rcases hmem with h | h <;> subst h <;> rfl

/-- The whole of `drawSkeleton` on a renderer whose slots are ready: it returns, its
events end with the final flush, the slots added are the slots to be batched, and
the events before the final flush are the prescribed ones. -/
theorem drawSkeleton_spec (self : SkeletonRenderer) (hready : self.drawReady) :
    ∃ self1 events, self.drawSkeleton = .ok (self1, events ++ [.flush]) ∧
      addedSlots events = self.drawOrder.filter self.isBatched ∧
      events = self.expectedEvents none (addedItems events) := by
  obtain ⟨events, heap1, h1, _, h3, h4⟩ :=
    drawLoop_spec
      { self with
        skeletonR := (self.nodeColor.r : ℚ) / 255
        skeletonG := (self.nodeColor.g : ℚ) / 255
        skeletonB := (self.nodeColor.b : ℚ) / 255
        skeletonA := (self.displayedOpacity : ℚ) / 255 }
      self.drawOrder none self.attachments (sameShape_refl _) hready
  unfold SkeletonRenderer.drawSkeleton
  simp only [blendCode] at h1
  simp only [h1]
  refine ⟨_, events, rfl, h3, ?_⟩
  have hcongr := expectedEvents_congr
    { self with
      skeletonR := (self.nodeColor.r : ℚ) / 255
      skeletonG := (self.nodeColor.g : ℚ) / 255
      skeletonB := (self.nodeColor.b : ℚ) / 255
      skeletonA := (self.displayedOpacity : ℚ) / 255 }
    self (fun _ => rfl) none (addedItems events)
  exact h4.trans hcongr

theorem slotReady_setVisibilityForAttachment (self : SkeletonRenderer) (name : String)
    (value : Bool) (slot : spSlot) :
    (self.setVisibilityForAttachment name value).slotReady slot = self.slotReady slot := by
  unfold SkeletonRenderer.setVisibilityForAttachment
  cases self._propertiesMap name <;> rfl

theorem isHidden_setVisibilityForAttachment_false (self : SkeletonRenderer) (name : String)
    (slot : spSlot) (h : self.regionNameOf slot = some name) :
    (self.setVisibilityForAttachment name false).isHidden slot = true := by
  have hname : (self.setVisibilityForAttachment name false).regionNameOf slot = some name := by
    rw [← h]
    unfold SkeletonRenderer.setVisibilityForAttachment
    cases self._propertiesMap name <;> rfl
  unfold SkeletonRenderer.isHidden
  rw [hname]
  unfold SkeletonRenderer.setVisibilityForAttachment
  cases self._propertiesMap name <;> simp [StdMap.set]

/-- C1: on a renderer whose slots are ready to be drawn, `drawSkeleton` returns and
the sequence of slots it adds to the batch is the subsequence of the draw order made
of the slots with a region, mesh or skinned mesh attachment with a non-null texture
that are not region attachments hidden through the properties map; after
`setVisibilityForAttachment(name, false)` no slot whose region attachment is called
`name` is added. -/
theorem drawSkeleton_adds_batched_slots (self : SkeletonRenderer) (name : String)
    (hready : self.drawReady) :
    (∃ self1 events, self.drawSkeleton = .ok (self1, events) ∧
      addedSlots events = self.drawOrder.filter
        (fun slot => self.hasTexturedAttachment slot && !self.isHidden slot) ∧
      (addedSlots events).Sublist self.drawOrder) ∧
    (∃ self1 events,
      (self.setVisibilityForAttachment name false).drawSkeleton = .ok (self1, events) ∧
      ∀ slot ∈ addedSlots events, self.regionNameOf slot ≠ some name) := by
  have hflush : ∀ events : List DrawEvent, addedSlots (events ++ [.flush]) = addedSlots events := by
    intro events
    simp [addedSlots, addedItems_append, addedItems]
  constructor
  · obtain ⟨self1, events, h1, h2, _⟩ := drawSkeleton_spec self hready
    refine ⟨self1, events ++ [.flush], h1, ?_, ?_⟩
    · rw [hflush, h2]
      rfl
    · rw [hflush, h2]
      exact List.filter_sublist _
  · have hready2 : (self.setVisibilityForAttachment name false).drawReady := by
      intro slot hmem
      rw [slotReady_setVisibilityForAttachment]
      apply hready
      revert hmem
      unfold SkeletonRenderer.setVisibilityForAttachment
      cases self._propertiesMap name <;> exact id
    obtain ⟨self1, events, h1, h2, _⟩ := drawSkeleton_spec _ hready2
    refine ⟨self1, events ++ [.flush], h1, ?_⟩
    intro slot hmem hname
    rw [hflush, h2, List.mem_filter] at hmem
    have hhid := isHidden_setVisibilityForAttachment_false self name slot hname
    have hb := hmem.2
    unfold SkeletonRenderer.isBatched at hb
    rw [hhid] at hb
    simp at hb

/-- C1 (witness): the sample renderer is ready to be drawn, so the statement applies
to it with the name `arm`. -/
theorem drawSkeleton_adds_batched_slots_witness :
    sampleRenderer.drawReady ∧
    ((∃ self1 events, sampleRenderer.drawSkeleton = .ok (self1, events) ∧
      addedSlots events = sampleRenderer.drawOrder.filter
        (fun slot => sampleRenderer.hasTexturedAttachment slot &&
          !sampleRenderer.isHidden slot) ∧
      (addedSlots events).Sublist sampleRenderer.drawOrder) ∧
    (∃ self1 events,
      (sampleRenderer.setVisibilityForAttachment "arm" false).drawSkeleton =
        .ok (self1, events) ∧
      ∀ slot ∈ addedSlots events, sampleRenderer.regionNameOf slot ≠ some "arm")) :=
  ⟨sampleRenderer_drawReady,
    drawSkeleton_adds_batched_slots sampleRenderer "arm" sampleRenderer_drawReady⟩

/-- C2: on a renderer whose slots are ready to be drawn, the events of `drawSkeleton`
are: for each added slot in turn, a flush followed by the blend function of the
slot's blend mode exactly when that mode differs from the mode of the previously
added slot (always for the first), then the add; and one flush at the end. Hence,
whatever blend function was in force before, every flushed batch holds items of a
single blend mode and is flushed under the blend function of that mode, every added
item is in a flushed batch, and nothing stays unflushed. -/
theorem drawSkeleton_blend_batches (self : SkeletonRenderer) (hready : self.drawReady) :
    ∃ self1 events, self.drawSkeleton = .ok (self1, events) ∧
      events = self.expectedEvents none (addedItems events) ++ [.flush] ∧
      (∀ current, ∀ batch ∈ flushedBatches current [] events, ∀ item ∈ batch.2,
        batch.1 = some (self.blendFuncFor item.slot.blendMode) ∧
        ∀ item2 ∈ batch.2, item2.slot.blendMode = item.slot.blendMode) ∧
      (∀ current, ((flushedBatches current [] events).map (fun batch => batch.2)).flatten =
        addedItems events) ∧
      unflushed [] events = [] := by
  obtain ⟨self1, events, h1, _, h3⟩ := drawSkeleton_spec self hready
  have hadd : addedItems (events ++ [.flush]) = addedItems events := by
    simp [addedItems_append, addedItems]
  refine ⟨self1, events ++ [.flush], h1, ?_, ?_, ?_, unflushed_append_flush [] events⟩
  · rw [hadd, ← h3]
  · intro current
    rw [h3]
    apply flushedBatches_expectedEvents self _ none current []
    · intro item hmem
      cases hmem
    · intro mode hmode
      cases hmode
  · intro current
    rw [flushedBatches_concat, hadd, List.nil_append]

/-- C2 (witness): the statement applied to the sample renderer. -/
theorem drawSkeleton_blend_batches_witness :
    sampleRenderer.drawReady ∧
    ∃ self1 events, sampleRenderer.drawSkeleton = .ok (self1, events) ∧
      events = sampleRenderer.expectedEvents none (addedItems events) ++ [.flush] ∧
      (∀ current, ∀ batch ∈ flushedBatches current [] events, ∀ item ∈ batch.2,
        batch.1 = some (sampleRenderer.blendFuncFor item.slot.blendMode) ∧
        ∀ item2 ∈ batch.2, item2.slot.blendMode = item.slot.blendMode) ∧
      (∀ current, ((flushedBatches current [] events).map (fun batch => batch.2)).flatten =
        addedItems events) ∧
      unflushed [] events = [] :=
  ⟨sampleRenderer_drawReady, drawSkeleton_blend_batches sampleRenderer sampleRenderer_drawReady⟩

/-- C10 (witness): every attachment the sample skeleton's lookup yields is live, so
the statement applies to the sample renderer and the name `hat`. -/
theorem getAttachment_lowest_region_witness :
    (∀ j p, sampleRenderer.attachmentForSlotIndex j "hat" = some p →
      (sampleRenderer.attachments p).isSome = true) ∧
    ∃ r, sampleRenderer.getAttachment "hat" = .ok r ∧
      (∀ p, r = some p → ∃ k, k < sampleRenderer.slotsCount ∧
        sampleRenderer.attachmentForSlotIndex k "hat" = some p ∧
        sampleRenderer.regionAt "hat" k ∧
        ∀ j, j < k → ¬ sampleRenderer.regionAt "hat" j) ∧
      (r = none ↔ ∀ j, j < sampleRenderer.slotsCount → ¬ sampleRenderer.regionAt "hat" j) ∧
      sampleRenderer.getAttachmentOffset "hat" = .ok r :=
  have hlive : ∀ j p, sampleRenderer.attachmentForSlotIndex j "hat" = some p →
      (sampleRenderer.attachments p).isSome = true := by
    intro j p h
    by_cases hj : j = 0
    · subst hj
      have hp : p = 2 := by
        have h2 : sampleRenderer.attachmentForSlotIndex 0 "hat" = some 2 := by decide
        rw [h2] at h
        exact (Option.some.inj h).symm
      subst hp
      decide
    · simp [sampleRenderer, hj] at h
  ⟨hlive, getAttachment_lowest_region sampleRenderer "hat" hlive⟩

/-- A successful `applyPng` rewrites the attachment at address `q`, which was live,
keeps its type and atlas region, and touches nothing else. -/
theorem applyPng_ok (s s1 : SkeletonRenderer) (rawName : String) (q : Nat)
    (h : s.applyPng rawName q = .ok s1) :
    ∃ att0 att1, s.attachments q = some att0 ∧
      s1 = { s with attachments := s.attachments.write q att1 } ∧
      att1.type = att0.type ∧ att1.rendererObject = att0.rendererObject := by
  unfold SkeletonRenderer.applyPng at h
  cases h0 : s.attachments q with
  | none => simp [Heap.deref, h0] at h
  | some att0 =>
    have hderef : s.attachments.deref q = .ok att0 := by
      unfold Heap.deref
      rw [h0]
    simp only [hderef] at h
    cases hg : s.getTexture att0 with
    | error e => simp [hg] at h
    | ok tex =>
      simp only [hg] at h
      cases ho : s.getAttachmentOffset rawName with
      | error e => simp [ho] at h
      | ok regionAttachement =>
        simp only [ho] at h
        cases hsrc : s.attachments.derefNullable regionAttachement with
        | error e => simp [hsrc] at h
        | ok source =>
          simp only [hsrc] at h
          cases tex with
          | none => simp at h
          | some texture =>
            simp only [Except.ok.injEq] at h
            exact ⟨att0, _, rfl, h.symm, rfl, rfl⟩

theorem Heap.write_write {α : Type} (h : Heap α) (p : Nat) (a b : α) :
    (h.write p a).write p b = h.write p b := by
  funext q
  unfold Heap.write
  by_cases hq : q = p <;> simp [hq]

/-- A successful first equip: the slot points at the replacement allocated at the
next free address and the renderer is the `afterEquip` one. -/
theorem equipNewPage_ok (s s1 : SkeletonRenderer) (N pngName rawName : String)
    (slot slot1 : spSlot)
    (h : s.equipNewPage N pngName N rawName slot = .ok (slot1, s1)) :
    slot1 = { slot with attachment := some s.nextAttachment } ∧
    ∃ replacement, s1 = s.afterEquip N pngName slot.attachment replacement ∧
      replacement.type = .SP_ATTACHMENT_REGION ∧
      replacement.rendererObject =
        some { name := N, rotate := false, page := some s.nextPage } := by
  unfold SkeletonRenderer.equipNewPage at h
  simp only at h
  split at h
  · cases h
  · rename_i self4 happly
    simp only [Except.ok.injEq, Prod.mk.injEq] at h
    obtain ⟨att0, att1, h0, h1, h2, h3⟩ := applyPng_ok _ _ _ _ happly
    refine ⟨h.1.symm, att1, ?_, ?_, ?_⟩
    · rw [← h.2, h1]
      simp only [SkeletonRenderer.createAttachmentWithPng, SkeletonRenderer.afterEquip,
        Heap.write_write, spAtlasPage_create_with_filename]
    · rw [h2]
      simp only [SkeletonRenderer.createAttachmentWithPng, Heap.write, ↓reduceIte,
        Option.some.injEq] at h0
      rw [← h0]
      rfl
    · rw [h3]
      simp only [SkeletonRenderer.createAttachmentWithPng, Heap.write, ↓reduceIte,
        Option.some.injEq] at h0
      rw [← h0]

/-- A successful repeated equip: a page gets the new texture and the attachment at
address `p`, which was live, is rewritten; its type and atlas region stay. -/
theorem equipExistingPage_ok (s s1 : SkeletonRenderer) (pngName rawName : String) (p : Nat)
    (attachment : spAttachment)
    (h : s.equipExistingPage pngName rawName p attachment = .ok s1) :
    ∃ att0 att1 page, s.attachments p = some att0 ∧
      s1 = s.afterRetexture pngName page p att1 ∧
      att1.type = att0.type ∧ att1.rendererObject = att0.rendererObject := by
  unfold SkeletonRenderer.equipExistingPage at h
  split at h
  · cases h
  · split at h
    · cases h
    · rename_i attachmentPage _
      split at h
      · cases h
      · obtain ⟨att0, att1, h0, h1, h2, h3⟩ := applyPng_ok _ _ _ _ h
        exact ⟨att0, att1, attachmentPage, h0, h1, h2, h3⟩

/-- What a successful iteration of the `setAttachmentPng` slot loop did: nothing on
a slot that is not a region attachment called `N`; `return` on such a slot once the
name is in `_avoidDuplication`; the first equip; or a repeated equip. -/
theorem setAttachmentPngSlot_ok (s s1 : SkeletonRenderer) (N pngName : String)
    (slot slot1 : spSlot) (avoid avoid1 : StdMap Bool) (ret : Bool)
    (h : s.setAttachmentPngSlot N pngName slot avoid = .ok (ret, slot1, avoid1, s1)) :
    (ret = false ∧ slot1 = slot ∧ avoid1 = avoid ∧ s1 = s ∧ s.regionNameOf slot ≠ some N) ∨
    (ret = true ∧ slot1 = slot ∧ s1 = s ∧ s.regionNameOf slot = some N ∧
      (avoid N).isSome = true) ∨
    (ret = false ∧ s.regionNameOf slot = some N ∧ avoid N = none ∧
      (∀ status, s._equipMap N = some status → status.pageState = false) ∧
      slot1 = { slot with attachment := some s.nextAttachment } ∧
      avoid1 = avoid.set N true ∧
      ∃ replacement, s1 = s.afterEquip N pngName slot.attachment replacement ∧
        replacement.type = .SP_ATTACHMENT_REGION ∧
        replacement.rendererObject =
          some { name := N, rotate := false, page := some s.nextPage }) ∨
    (ret = false ∧ s.regionNameOf slot = some N ∧ avoid N = none ∧
      (∃ status, s._equipMap N = some status ∧ status.pageState = true) ∧
      slot1 = slot ∧ avoid1 = avoid.set N true ∧
      ∃ p att0 att1 page, slot.attachment = some p ∧ s.attachments p = some att0 ∧
        s1 = s.afterRetexture pngName page p att1 ∧
        att1.type = att0.type ∧ att1.rendererObject = att0.rendererObject) := by
  unfold SkeletonRenderer.setAttachmentPngSlot at h
  cases hatt : slot.attachment with
  | none =>
    simp only [hatt, Except.ok.injEq, Prod.mk.injEq] at h
    obtain ⟨h1, h2, h3, h4⟩ := h
    refine Or.inl ⟨h1.symm, h2.symm, h3.symm, h4.symm, ?_⟩
    simp [SkeletonRenderer.regionNameOf, hatt]
  | some p =>
    simp only [hatt] at h
    cases h0 : s.attachments p with
    | none => simp [Heap.deref, h0] at h
    | some att0 =>
      have hderef : s.attachments.deref p = .ok att0 := by
        unfold Heap.deref
        rw [h0]
      simp only [hderef] at h
      by_cases hty : att0.type = .SP_ATTACHMENT_REGION
      · simp only [hty, ↓reduceIte] at h
        cases hreg : att0.rendererObject with
        | none => simp [getCharacterName, hreg] at h
        | some region =>
          have hname : getCharacterName att0 = .ok region.name := by
            unfold getCharacterName
            rw [hreg]
          simp only [hname] at h
          have hrn : s.regionNameOf slot = some region.name := by
            simp [SkeletonRenderer.regionNameOf, hatt, h0, hty, hreg]
          by_cases hN : N = region.name
          · rw [← hN] at hrn
            simp only [← hN, ↓reduceIte] at h
            cases hav : avoid N with
            | some v =>
              simp only [hav, Except.ok.injEq, Prod.mk.injEq] at h
              obtain ⟨h1, h2, _, h4⟩ := h
              exact Or.inr (Or.inl ⟨h1.symm, h2.symm, h4.symm, hrn, by simp [hav]⟩)
            | none =>
              simp only [hav] at h
              split at h
              · rename_i hmissing
                split at h
                · cases h
                · rename_i slot2 s2 hequip
                  simp only [Except.ok.injEq, Prod.mk.injEq] at h
                  obtain ⟨h1, h2, h3, h4⟩ := h
                  obtain ⟨hs, replacement, hr1, hr2, hr3⟩ :=
                    equipNewPage_ok s s2 N pngName _ slot slot2 hequip
                  refine Or.inr (Or.inr (Or.inl
                    ⟨h1.symm, hrn, rfl, ?_, ?_, h3.symm, replacement, ?_, hr2, hr3⟩))
                  · intro status hst
                    rw [hst] at hmissing
                    simpa using hmissing
                  · rw [← h2, hs]
                  · rw [← h4, hr1, hatt]
              · rename_i hmissing
                split at h
                · cases h
                · rename_i s2 hequip
                  simp only [Except.ok.injEq, Prod.mk.injEq] at h
                  obtain ⟨h1, h2, h3, h4⟩ := h
                  obtain ⟨att0', att1, page, ha0, ha1, ha2, ha3⟩ :=
                    equipExistingPage_ok s s2 pngName _ p att0 hequip
                  refine Or.inr (Or.inr (Or.inr
                    ⟨h1.symm, hrn, rfl, ?_, h2.symm, h3.symm, p, att0', att1, page, rfl, ha0,
                      ?_, ha2, ha3⟩))
                  · cases heq : s._equipMap N with
                    | none => simp [heq] at hmissing
                    | some status =>
                      refine ⟨status, rfl, ?_⟩
                      rw [heq] at hmissing
                      simpa using hmissing
                  · rw [← h4, ha1]
          · simp only [hN, ↓reduceIte, Except.ok.injEq, Prod.mk.injEq] at h
            obtain ⟨h1, h2, h3, h4⟩ := h
            refine Or.inl ⟨h1.symm, h2.symm, h3.symm, h4.symm, ?_⟩
            rw [hrn]
            intro hc
            exact hN (Option.some.inj hc).symm
      · simp only [hty, ↓reduceIte, Except.ok.injEq, Prod.mk.injEq] at h
        obtain ⟨h1, h2, h3, h4⟩ := h
        refine Or.inl ⟨h1.symm, h2.symm, h3.symm, h4.symm, ?_⟩
        simp [SkeletonRenderer.regionNameOf, hatt, h0, hty]

/-- Once the name is in `_avoidDuplication`, the rest of the slot loop of
`setAttachmentPng` changes nothing. -/
theorem setAttachmentPngLoop_avoided (N pngName : String) (slots slots1 : List spSlot)
    (avoid : StdMap Bool) (s s1 : SkeletonRenderer) (havoid : (avoid N).isSome = true)
    (h : SkeletonRenderer.setAttachmentPngLoop N pngName slots avoid s = .ok (slots1, s1)) :
    slots1 = slots ∧ s1 = s := by
  induction slots generalizing slots1 s1 with
  | nil =>
    simp only [SkeletonRenderer.setAttachmentPngLoop, Except.ok.injEq, Prod.mk.injEq] at h
    exact ⟨h.1.symm, h.2.symm⟩
  | cons slot rest ih =>
    unfold SkeletonRenderer.setAttachmentPngLoop at h
    cases hslot : s.setAttachmentPngSlot N pngName slot avoid with
    | error e => simp [hslot] at h
    | ok res =>
      obtain ⟨ret, slot2, avoid2, s2⟩ := res
      rw [hslot] at h
      rcases setAttachmentPngSlot_ok s s2 N pngName slot slot2 avoid avoid2 ret hslot with
        ⟨h1, h2, h3, h4, _⟩ | ⟨h1, h2, h3, _, _⟩ | ⟨_, _, h3, _⟩ | ⟨_, _, h3, _⟩
      · rw [h1, h2, h3, h4] at h
        simp only at h
        cases hrest : SkeletonRenderer.setAttachmentPngLoop N pngName rest avoid s with
        | error e => simp [hrest] at h
        | ok res2 =>
          obtain ⟨rest2, s3⟩ := res2
          rw [hrest] at h
          simp only [Except.ok.injEq, Prod.mk.injEq] at h
          obtain ⟨hr1, hr2⟩ := ih rest2 s3 hrest
          rw [← h.1, ← h.2, hr1, hr2]
          exact ⟨rfl, rfl⟩
      · rw [h1, h2, h3] at h
        simp only [Except.ok.injEq, Prod.mk.injEq] at h
        exact ⟨h.1.symm, h.2.symm⟩
      · rw [h3] at havoid
        cases havoid
      · rw [h3] at havoid
        cases havoid

/-- What a successful run of the slot loop of `setAttachmentPng` did, started with
the name not in `_avoidDuplication`: nothing when no slot holds a region attachment
called `N`; otherwise it acted on the first such slot only, either with the first
equip (the slot now points at the replacement) or with a repeated equip (no slot
changes). -/
theorem setAttachmentPngLoop_ok (N pngName : String) (slots slots1 : List spSlot)
    (avoid : StdMap Bool) (s s1 : SkeletonRenderer) (havoid : avoid N = none)
    (h : SkeletonRenderer.setAttachmentPngLoop N pngName slots avoid s = .ok (slots1, s1)) :
    ((∀ x ∈ slots, s.regionNameOf x ≠ some N) ∧ slots1 = slots ∧ s1 = s) ∨
    ∃ pre slot post, slots = pre ++ slot :: post ∧
      (∀ x ∈ pre, s.regionNameOf x ≠ some N) ∧ s.regionNameOf slot = some N ∧
      (((∀ status, s._equipMap N = some status → status.pageState = false) ∧
          slots1 = pre ++ { slot with attachment := some s.nextAttachment } :: post ∧
          ∃ replacement, s1 = s.afterEquip N pngName slot.attachment replacement ∧
            replacement.type = .SP_ATTACHMENT_REGION ∧
            replacement.rendererObject =
              some { name := N, rotate := false, page := some s.nextPage }) ∨
        ((∃ status, s._equipMap N = some status ∧ status.pageState = true) ∧
          slots1 = slots ∧
          ∃ p att0 att1 page, slot.attachment = some p ∧ s.attachments p = some att0 ∧
            s1 = s.afterRetexture pngName page p att1 ∧
            att1.type = att0.type ∧ att1.rendererObject = att0.rendererObject)) := by
  induction slots generalizing slots1 s1 with
  | nil =>
    simp only [SkeletonRenderer.setAttachmentPngLoop, Except.ok.injEq, Prod.mk.injEq] at h
    refine Or.inl ⟨?_, h.1.symm, h.2.symm⟩
    intro x hx
    cases hx
  | cons slot rest ih =>
    unfold SkeletonRenderer.setAttachmentPngLoop at h
    cases hslot : s.setAttachmentPngSlot N pngName slot avoid with
    | error e => simp [hslot] at h
    | ok res =>
      obtain ⟨ret, slot2, avoid2, s2⟩ := res
      rw [hslot] at h
      rcases setAttachmentPngSlot_ok s s2 N pngName slot slot2 avoid avoid2 ret hslot with
        ⟨h1, h2, h3, h4, h5⟩ | ⟨_, _, _, _, h5⟩ | ⟨h1, h2, _, h4, h5, h6, h7⟩ |
        ⟨h1, h2, _, h4, h5, h6, h7⟩
      · rw [h1, h2, h3, h4] at h
        simp only at h
        cases hrest : SkeletonRenderer.setAttachmentPngLoop N pngName rest avoid s with
        | error e => simp [hrest] at h
        | ok res2 =>
          obtain ⟨rest2, s3⟩ := res2
          rw [hrest] at h
          simp only [Except.ok.injEq, Prod.mk.injEq] at h
          obtain ⟨hs1, hs2⟩ := h
          rw [← hs1, ← hs2]
          rcases ih rest2 s3 hrest with ⟨hno, hr1, hr2⟩ | ⟨pre, x, post, hsplit, hpre, hx, hcase⟩
          · refine Or.inl ⟨?_, by rw [hr1], hr2⟩
            intro y hy
            rcases List.mem_cons.1 hy with hy | hy
            · rw [hy]
              exact h5
            · exact hno y hy
          · refine Or.inr ⟨slot :: pre, x, post, by rw [hsplit]; rfl, ?_, hx, ?_⟩
            · intro y hy
              rcases List.mem_cons.1 hy with hy | hy
              · rw [hy]
                exact h5
              · exact hpre y hy
            · rcases hcase with ⟨hc1, hc2, hc3⟩ | ⟨hc1, hc2, hc3⟩
              · exact Or.inl ⟨hc1, by rw [hc2]; rfl, hc3⟩
              · exact Or.inr ⟨hc1, by rw [hc2], hc3⟩
      · rw [havoid] at h5
        cases h5
      · rw [h1, h5, h6] at h
        simp only at h
        cases hrest : SkeletonRenderer.setAttachmentPngLoop N pngName rest
            (avoid.set N true) s2 with
        | error e => simp [hrest] at h
        | ok res2 =>
          obtain ⟨rest2, s3⟩ := res2
          rw [hrest] at h
          simp only [Except.ok.injEq, Prod.mk.injEq] at h
          obtain ⟨hs1, hs2⟩ := h
          rw [← hs1, ← hs2]
          obtain ⟨hr1, hr2⟩ := setAttachmentPngLoop_avoided N pngName rest rest2
            (avoid.set N true) s2 s3 (by simp [StdMap.set]) hrest
          refine Or.inr ⟨[], slot, rest, rfl, ?_, h2, Or.inl ⟨h4, by rw [hr1]; rfl, ?_⟩⟩
          · intro y hy
            cases hy
          · rw [hr2]
            exact h7
      · rw [h1, h5, h6] at h
        simp only at h
        cases hrest : SkeletonRenderer.setAttachmentPngLoop N pngName rest
            (avoid.set N true) s2 with
        | error e => simp [hrest] at h
        | ok res2 =>
          obtain ⟨rest2, s3⟩ := res2
          rw [hrest] at h
          simp only [Except.ok.injEq, Prod.mk.injEq] at h
          obtain ⟨hs1, hs2⟩ := h
          rw [← hs1, ← hs2]
          obtain ⟨hr1, hr2⟩ := setAttachmentPngLoop_avoided N pngName rest rest2
            (avoid.set N true) s2 s3 (by simp [StdMap.set]) hrest
          refine Or.inr ⟨[], slot, rest, rfl, ?_, h2, Or.inr ⟨h4, by rw [hr1], ?_⟩⟩
          · intro y hy
            cases hy
          · rw [hr2]
            exact h7

/-- What a successful `setAttachmentPng(N, pngName)` did: nothing when no slot holds
a region attachment called `N`; otherwise the first equip or a repeated equip on the
first such slot in draw order. -/
theorem setAttachmentPng_ok (s s1 : SkeletonRenderer) (N pngName : String)
    (h : s.setAttachmentPng N pngName = .ok s1) :
    ((∀ x ∈ s.drawOrder, s.regionNameOf x ≠ some N) ∧ s1 = s) ∨
    ∃ pre slot post, s.drawOrder = pre ++ slot :: post ∧
      (∀ x ∈ pre, s.regionNameOf x ≠ some N) ∧ s.regionNameOf slot = some N ∧
      (((∀ status, s._equipMap N = some status → status.pageState = false) ∧
          ∃ replacement,
            s1 = { s.afterEquip N pngName slot.attachment replacement with
                   drawOrder := pre ++ { slot with attachment := some s.nextAttachment } :: post } ∧
            replacement.type = .SP_ATTACHMENT_REGION ∧
            replacement.rendererObject =
              some { name := N, rotate := false, page := some s.nextPage }) ∨
        ((∃ status, s._equipMap N = some status ∧ status.pageState = true) ∧
          ∃ p att0 att1 page, slot.attachment = some p ∧ s.attachments p = some att0 ∧
            s1 = s.afterRetexture pngName page p att1 ∧
            att1.type = att0.type ∧ att1.rendererObject = att0.rendererObject)) := by
  unfold SkeletonRenderer.setAttachmentPng at h
  cases hloop : SkeletonRenderer.setAttachmentPngLoop N pngName s.drawOrder StdMap.empty s with
  | error e => simp [hloop] at h
  | ok res =>
    obtain ⟨slots1, s2⟩ := res
    rw [hloop] at h
    simp only [Except.ok.injEq] at h
    rcases setAttachmentPngLoop_ok N pngName s.drawOrder slots1 StdMap.empty s s2 rfl hloop with
      ⟨hno, hr1, hr2⟩ | ⟨pre, slot, post, hsplit, hpre, hslot, hcase⟩
    · refine Or.inl ⟨hno, ?_⟩
      rw [← h, hr1, hr2]
    · refine Or.inr ⟨pre, slot, post, hsplit, hpre, hslot, ?_⟩
      rcases hcase with ⟨hc1, hc2, replacement, hc3, hc4, hc5⟩ |
        ⟨hc1, hc2, p, att0, att1, page, hc3, hc4, hc5, hc6, hc7⟩
      · exact Or.inl ⟨hc1, replacement, by rw [← h, hc2, hc3], hc4, hc5⟩
      · refine Or.inr ⟨hc1, p, att0, att1, page, hc3, hc4, ?_, hc6, hc7⟩
        rw [← h, hc2, hc5]
        rfl

/-- The first element with a property splits a list in one way only. -/
theorem first_split_unique {α : Type} (P : α → Prop) (pre pre1 post post1 : List α) (x x1 : α)
    (h : pre ++ x :: post = pre1 ++ x1 :: post1)
    (hpre : ∀ y ∈ pre, ¬ P y) (hx : P x) (hpre1 : ∀ y ∈ pre1, ¬ P y) (hx1 : P x1) :
    pre = pre1 ∧ x = x1 ∧ post = post1 := by
  induction pre generalizing pre1 with
  | nil =>
    cases pre1 with
    | nil =>
      simp only [List.nil_append, List.cons.injEq] at h
      exact ⟨rfl, h.1, h.2⟩
    | cons y rest =>
      simp only [List.nil_append, List.cons_append, List.cons.injEq] at h
      exact absurd (h.1 ▸ hx) (hpre1 y (List.mem_cons_self _ _))
  | cons z rest ih =>
    cases pre1 with
    | nil =>
      simp only [List.nil_append, List.cons_append, List.cons.injEq] at h
      exact absurd (h.1 ▸ hx1) (hpre z (List.mem_cons_self _ _))
    | cons y rest1 =>
      simp only [List.cons_append, List.cons.injEq] at h
      obtain ⟨h1, h2, h3⟩ := ih rest1 h.2
        (fun w hw => hpre w (List.mem_cons_of_mem _ hw))
        (fun w hw => hpre1 w (List.mem_cons_of_mem _ hw))
      exact ⟨by rw [h.1, h1], h2, h3⟩

/-- A call of `setAttachmentPng(N, _)` on a renderer in which `N` is equipped takes
the existing-page branch: no slot changes, nothing is allocated, and both maps stay
as they are. -/
theorem setAttachmentPng_equipped (s s1 : SkeletonRenderer) (N pngName : String)
    (status : pageStatus) (heq : s._equipMap N = some status) (hst : status.pageState = true)
    (h : s.setAttachmentPng N pngName = .ok s1) :
    s1.drawOrder = s.drawOrder ∧ s1.nextAttachment = s.nextAttachment ∧
      s1.nextPage = s.nextPage ∧
      (∀ q, (s1.attachments q).isSome = (s.attachments q).isSome) ∧
      s1._attachmentMap = s._attachmentMap ∧ s1._equipMap = s._equipMap := by
  rcases setAttachmentPng_ok s s1 N pngName h with
    ⟨_, hs⟩ | ⟨pre, slot, post, _, _, _, hcase⟩
  · rw [hs]
    exact ⟨rfl, rfl, rfl, fun _ => rfl, rfl, rfl⟩
  · rcases hcase with ⟨hc1, _⟩ | ⟨_, p, att0, att1, page, _, h0, hs, _, _⟩
    · have := hc1 status heq
      rw [hst] at this
      cases this
    · rw [hs]
      refine ⟨rfl, rfl, rfl, ?_, rfl, rfl⟩
      intro q
      show ((s.attachments.write p att1) q).isSome = (s.attachments q).isSome
      unfold Heap.write
      by_cases hq : q = p
      · simp [hq, h0]
      · simp [hq]

/-- Any number of further `setAttachmentPng(N, _)` calls on a renderer in which `N`
is equipped leave the slots, the allocation and both maps as they are. -/
theorem setAttachmentPngs_equipped (N : String) (later : List String)
    (s sn : SkeletonRenderer) (status : pageStatus) (heq : s._equipMap N = some status)
    (hst : status.pageState = true) (h : s.setAttachmentPngs N later = .ok sn) :
    sn.drawOrder = s.drawOrder ∧ sn.nextAttachment = s.nextAttachment ∧
      sn.nextPage = s.nextPage ∧
      (∀ q, (sn.attachments q).isSome = (s.attachments q).isSome) ∧
      sn._attachmentMap = s._attachmentMap ∧ sn._equipMap = s._equipMap := by
  induction later generalizing s with
  | nil =>
    simp only [SkeletonRenderer.setAttachmentPngs, Except.ok.injEq] at h
    rw [← h]
    exact ⟨rfl, rfl, rfl, fun _ => rfl, rfl, rfl⟩
  | cons png rest ih =>
    unfold SkeletonRenderer.setAttachmentPngs at h
    cases hcall : s.setAttachmentPng N png with
    | error e => simp [hcall] at h
    | ok s1 =>
      rw [hcall] at h
      obtain ⟨a1, a2, a3, a4, a5, a6⟩ := setAttachmentPng_equipped s s1 N png status heq hst hcall
      obtain ⟨b1, b2, b3, b4, b5, b6⟩ := ih s1 (by rw [a6]; exact heq) h
      exact ⟨b1.trans a1, b2.trans a2, b3.trans a3, fun q => (b4 q).trans (a4 q),
        b5.trans a5, b6.trans a6⟩

/-- C6: let `slot` be the first slot in draw order whose region attachment is called
`N`, on a renderer in which `N` is not yet equipped. After a successful
`setAttachmentPng(N, p1)` the original attachment of the slot is saved in
`_attachmentMap[N]`, `N` is equipped and the slot points at the replacement; every
later successful `setAttachmentPng(N, _)` creates no attachment, leaves every slot
pointing where it did and leaves both maps alone, so `_attachmentMap[N]` is still
the attachment the slot held before the first call. -/
theorem setAttachmentPng_keeps_saved_original (self self1 selfn : SkeletonRenderer)
    (N p1 : String) (later : List String) (pre post : List spSlot) (slot : spSlot)
    (hfresh : self._equipMap N = none)
    (hsplit : self.drawOrder = pre ++ slot :: post)
    (hpre : ∀ x ∈ pre, self.regionNameOf x ≠ some N)
    (hslot : self.regionNameOf slot = some N)
    (h1 : self.setAttachmentPng N p1 = .ok self1)
    (hn : self1.setAttachmentPngs N later = .ok selfn) :
    self1._attachmentMap N = some slot.attachment ∧
      self1._equipMap N =
        some { pageState := true, pageAttachment := some self.nextAttachment } ∧
      self1.drawOrder = pre ++ { slot with attachment := some self.nextAttachment } :: post ∧
      self1.nextAttachment = self.nextAttachment + 1 ∧
      selfn.drawOrder = self1.drawOrder ∧
      selfn.nextAttachment = self1.nextAttachment ∧
      (∀ q, (selfn.attachments q).isSome = (self1.attachments q).isSome) ∧
      selfn._equipMap = self1._equipMap ∧
      selfn._attachmentMap = self1._attachmentMap ∧
      selfn._attachmentMap N = some slot.attachment := by
  have hfirst : self1._attachmentMap N = some slot.attachment ∧
      self1._equipMap N =
        some { pageState := true, pageAttachment := some self.nextAttachment } ∧
      self1.drawOrder = pre ++ { slot with attachment := some self.nextAttachment } :: post ∧
      self1.nextAttachment = self.nextAttachment + 1 := by
    rcases setAttachmentPng_ok self self1 N p1 h1 with
      ⟨hno, _⟩ | ⟨pre1, slot1, post1, hsplit1, hpre1, hslot1, hcase⟩
    · exact absurd hslot (hno slot (by rw [hsplit]; simp))
    · obtain ⟨e1, e2, e3⟩ := first_split_unique (fun x => self.regionNameOf x = some N)
        pre pre1 post post1 slot slot1 (hsplit.symm.trans hsplit1) hpre hslot hpre1 hslot1
      rcases hcase with ⟨_, replacement, hs, _, _⟩ | ⟨⟨status, hst, _⟩, _⟩
      · rw [hs, e1, e2, e3]
        refine ⟨?_, ?_, rfl, rfl⟩
        · show (self._attachmentMap.set N slot1.attachment) N = some slot1.attachment
          simp [StdMap.set]
        · show (self._equipMap.set N _) N = _
          simp [StdMap.set]
      · rw [hfresh] at hst
        cases hst
  obtain ⟨f1, f2, f3, f4⟩ := hfirst
  obtain ⟨g1, g2, _, g4, g5, g6⟩ := setAttachmentPngs_equipped N later self1 selfn _ f2 rfl hn
  exact ⟨f1, f2, f3, f4, g1, g2, g4, g6, g5, by rw [g5]; exact f1⟩

theorem sampleEquipped_ok :
    sampleRenderer.setAttachmentPng "arm" "img/hat.png" = .ok sampleEquipped := by
  rfl

theorem sampleEquippedTwice_ok :
    sampleEquipped.setAttachmentPngs "arm" ["img/hat.png"] = .ok sampleEquippedTwice := by
  rfl

/-- C6 (witness): on the sample renderer `arm` is not equipped and slot 0 is the
first slot showing it; the equip with `img/hat.png` and a second equip both succeed,
so the statement applies. -/
theorem setAttachmentPng_keeps_saved_original_witness :
    sampleRenderer._equipMap "arm" = none ∧
    sampleRenderer.drawOrder = [] ++ sampleSlot0 :: [sampleSlot1] ∧
    sampleRenderer.regionNameOf sampleSlot0 = some "arm" ∧
    sampleRenderer.setAttachmentPng "arm" "img/hat.png" = .ok sampleEquipped ∧
    sampleEquipped.setAttachmentPngs "arm" ["img/hat.png"] = .ok sampleEquippedTwice ∧
    (sampleEquipped._attachmentMap "arm" = some sampleSlot0.attachment ∧
      sampleEquipped._equipMap "arm" =
        some { pageState := true, pageAttachment := some sampleRenderer.nextAttachment } ∧
      sampleEquipped.drawOrder =
        [] ++ { sampleSlot0 with attachment := some sampleRenderer.nextAttachment } ::
          [sampleSlot1] ∧
      sampleEquipped.nextAttachment = sampleRenderer.nextAttachment + 1 ∧
      sampleEquippedTwice.drawOrder = sampleEquipped.drawOrder ∧
      sampleEquippedTwice.nextAttachment = sampleEquipped.nextAttachment ∧
      (∀ q, (sampleEquippedTwice.attachments q).isSome =
        (sampleEquipped.attachments q).isSome) ∧
      sampleEquippedTwice._equipMap = sampleEquipped._equipMap ∧
      sampleEquippedTwice._attachmentMap = sampleEquipped._attachmentMap ∧
      sampleEquippedTwice._attachmentMap "arm" = some sampleSlot0.attachment) :=
  ⟨rfl, rfl, by decide, sampleEquipped_ok, sampleEquippedTwice_ok,
    setAttachmentPng_keeps_saved_original sampleRenderer sampleEquipped sampleEquippedTwice
      "arm" "img/hat.png" ["img/hat.png"] [] [sampleSlot1] sampleSlot0 rfl rfl
      (fun _ hx => absurd hx (List.not_mem_nil _)) (by decide) sampleEquipped_ok
      sampleEquippedTwice_ok⟩

/-- C4 (failing input): on a skeleton whose two slots both show the atlas region
`arm`, `arm` is not equipped, the raw name `hat` of `img/hat.png` names a region
attachment and `setAttachmentPng("arm", "img/hat.png")` succeeds, equipping slot 0
only; the following `reset("arm")` restores slot 0, then treats slot 1 as equipped
too and calls `_equipMap.erase` with the end iterator. -/
theorem equip_reset_faults_on_shared_name :
    twoArmRenderer._equipMap "arm" = none ∧
    twoArmRenderer.regionNameOf sampleSlot0 = some "arm" ∧
    twoArmRenderer.regionNameOf sampleSlot1 = some "arm" ∧
    twoArmRenderer.getAttachmentOffset (rawNameOf "img/hat.png") = .ok (some 2) ∧
    twoArmRenderer.setAttachmentPng "arm" "img/hat.png" = .ok twoArmEquipped ∧
    twoArmEquipped.drawOrder.map (fun slot => slot.attachment) = [some 3, some 1] ∧
    twoArmEquipped.reset "arm" = .error .eraseEnd := by
  refine ⟨rfl, by decide, by decide, rfl, rfl, by decide, rfl⟩

/-- C5 (failing input): after `setAttachmentPng("arm", "img/hat.png")` on a skeleton
of one slot, the slot's region attachment has its original saved in
`_attachmentMap`; `reset()` returns and leaves the slot on the replacement (address
3, not the saved original at address 0), the replacement live and the entry of `arm`
in `_equipMap`. On the two-slot sample `reset()` after the same equip reaches
`_equipMap.erase` with the end iterator at the slot that was never equipped. -/
theorem resetAll_skips_equipped_slot :
    oneArmRenderer.setAttachmentPng "arm" "img/hat.png" = .ok oneArmEquipped ∧
    oneArmEquipped.regionNameOf { sampleSlot0 with attachment := some 3 } = some "arm" ∧
    oneArmEquipped.drawOrder = [{ sampleSlot0 with attachment := some 3 }] ∧
    oneArmEquipped._attachmentMap "arm" = some (some 0) ∧
    oneArmEquipped.resetAll = .ok oneArmEquippedReset ∧
    oneArmEquippedReset.drawOrder = [{ sampleSlot0 with attachment := some 3 }] ∧
    (oneArmEquippedReset.attachments 3).isSome = true ∧
    oneArmEquippedReset._equipMap "arm" =
      some { pageState := true, pageAttachment := some 3 } ∧
    sampleEquipped.resetAll = .error .eraseEnd := by
  refine ⟨rfl, by decide, by decide, by decide, rfl, by decide, by decide, by decide, rfl⟩

/-- An iteration of the `reset(N)` loop leaves alone a slot that is not a region
attachment called `N`; `t` is a renderer whose attachment heap agrees with that of
`s` away from the address `fresh`, which is free in `s`. -/
theorem resetSlot_unnamed (s t : SkeletonRenderer) (N : String) (slot : spSlot) (fresh : Nat)
    (hagree : ∀ q, q ≠ fresh → t.attachments q = s.attachments q)
    (hfree : s.attachments fresh = none)
    (hwf : s.slotResettable slot) (hname : s.regionNameOf slot ≠ some N) :
    t.resetSlot N slot = .ok (slot, t) := by
  unfold SkeletonRenderer.resetSlot
  cases hatt : slot.attachment with
  | none => rfl
  | some q =>
    obtain ⟨att, hq, hreg⟩ := hwf q hatt
    have hne : q ≠ fresh := by
      intro hc
      rw [hc, hfree] at hq
      cases hq
    have hderef : t.attachments.deref q = .ok att := by
      unfold Heap.deref
      rw [hagree q hne, hq]
    simp only [hderef]
    by_cases hty : att.type = .SP_ATTACHMENT_REGION
    · simp only [hty, ↓reduceIte]
      cases hro : att.rendererObject with
      | none =>
        have := hreg hty
        rw [hro] at this
        cases this
      | some region =>
        have hcn : getCharacterName att = .ok region.name := by
          unfold getCharacterName
          rw [hro]
        simp only [hcn]
        have hN : ¬ N = region.name := by
          intro hc
          apply hname
          simp [SkeletonRenderer.regionNameOf, hatt, hq, hty, hro, hc]
        simp only [hN, ↓reduceIte]
    · simp only [hty, ↓reduceIte]

theorem resetLoop_cons (N : String) (x : spSlot) (xs : List spSlot) (t : SkeletonRenderer) :
    SkeletonRenderer.resetLoop N (x :: xs) t =
      match t.resetSlot N x with
      | .error e => .error e
      | .ok (slot1, t1) =>
        match SkeletonRenderer.resetLoop N xs t1 with
        | .error e => .error e
        | .ok (rest1, t2) => .ok (slot1 :: rest1, t2) := by
  rw [SkeletonRenderer.resetLoop]

/-- The `reset(N)` loop passes over a prefix of slots that its iterations leave
alone. -/
theorem resetLoop_skip (N : String) (pre rest : List spSlot) (t : SkeletonRenderer)
    (hpre : ∀ x ∈ pre, t.resetSlot N x = .ok (x, t)) :
    SkeletonRenderer.resetLoop N (pre ++ rest) t =
      match SkeletonRenderer.resetLoop N rest t with
      | .error e => .error e
      | .ok (rest1, t1) => .ok (pre ++ rest1, t1) := by
  induction pre with
  | nil =>
    simp only [List.nil_append]
    cases h : SkeletonRenderer.resetLoop N rest t with
    | error e => rfl
    | ok res => rfl
  | cons x xs ih =>
    have hx := hpre x (List.mem_cons_self _ _)
    have hxs := ih (fun y hy => hpre y (List.mem_cons_of_mem _ hy))
    rw [List.cons_append, resetLoop_cons, hx]
    simp only
    rw [hxs]
    cases h : SkeletonRenderer.resetLoop N rest t with
    | error e => rfl
    | ok res => rfl

theorem resetLoop_all_skipped (N : String) (slots : List spSlot) (t : SkeletonRenderer)
    (h : ∀ x ∈ slots, t.resetSlot N x = .ok (x, t)) :
    SkeletonRenderer.resetLoop N slots t = .ok (slots, t) := by
  have := resetLoop_skip N slots [] t h
  simpa [SkeletonRenderer.resetLoop] using this

/-- Equip followed by reset when `N` names one slot only: on a renderer in which `N`
is not equipped, the slots are valid and the next addresses are free, a successful
`setAttachmentPng(N, pngName)` followed by `reset(N)` returns, and afterwards the
draw order, hence the slot's attachment pointer, the attachment heap, the page heap
and `_equipMap` are what they were before the equip, `_attachmentMap[N]` holding the
original. -/
theorem equip_reset_round_trip (s s1 : SkeletonRenderer) (N pngName : String)
    (pre post : List spSlot) (slot : spSlot)
    (hsplit : s.drawOrder = pre ++ slot :: post)
    (hpre : ∀ x ∈ pre, s.regionNameOf x ≠ some N)
    (hslot : s.regionNameOf slot = some N)
    (hpost : ∀ x ∈ post, s.regionNameOf x ≠ some N)
    (hfresh : s._equipMap N = none)
    (hwf : ∀ x ∈ s.drawOrder, s.slotResettable x)
    (hfreeA : s.attachments s.nextAttachment = none)
    (hfreeP : s.pages s.nextPage = none)
    (h1 : s.setAttachmentPng N pngName = .ok s1) :
    ∃ s2, s1.reset N = .ok s2 ∧ s2.drawOrder = s.drawOrder ∧
      s2.attachments = s.attachments ∧ s2.pages = s.pages ∧
      s2._equipMap = s._equipMap ∧
      s2._attachmentMap = s._attachmentMap.set N slot.attachment := by
  rcases setAttachmentPng_ok s s1 N pngName h1 with
    ⟨hno, _⟩ | ⟨pre1, slot1, post1, hsplit1, hpre1, hslot1, hcase⟩
  · exact absurd hslot (hno slot (by rw [hsplit]; simp))
  · obtain ⟨e1, e2, e3⟩ := first_split_unique (fun x => s.regionNameOf x = some N)
      pre pre1 post post1 slot slot1 (hsplit.symm.trans hsplit1) hpre hslot hpre1 hslot1
    rcases hcase with ⟨_, replacement, hs, hty, hro⟩ | ⟨⟨status, hst, _⟩, _⟩
    · rw [← e1, ← e2, ← e3] at hs
      have hagree1 : ∀ q, q ≠ s.nextAttachment → s1.attachments q = s.attachments q := by
        intro q hq
        rw [hs]
        show (s.attachments.write s.nextAttachment replacement) q = s.attachments q
        simp [Heap.write, hq]
      have hwfpre : ∀ x ∈ pre, s.slotResettable x :=
        fun x hx => hwf x (by rw [hsplit]; exact List.mem_append_left _ hx)
      have hwfpost : ∀ x ∈ post, s.slotResettable x :=
        fun x hx => hwf x (by
          rw [hsplit]
          exact List.mem_append_right _ (List.mem_cons_of_mem _ hx))
      have hskip1 : ∀ x ∈ pre, s1.resetSlot N x = .ok (x, s1) :=
        fun x hx => resetSlot_unnamed s s1 N x s.nextAttachment hagree1 hfreeA
          (hwfpre x hx) (hpre x hx)
      -- the equipped slot
      have hmid : ∃ t, s1.resetSlot N { slot with attachment := some s.nextAttachment } =
          .ok (slot, t) ∧ t.attachments = s.attachments ∧ t.pages = s.pages ∧
          t._equipMap = s._equipMap ∧
          t._attachmentMap = s._attachmentMap.set N slot.attachment := by
        have ha : s1.attachments s.nextAttachment = some replacement := by
          rw [hs]
          show (s.attachments.write s.nextAttachment replacement) s.nextAttachment = _
          simp [Heap.write]
        have hderef : s1.attachments.deref s.nextAttachment = .ok replacement := by
          unfold Heap.deref
          rw [ha]
        have hcn : getCharacterName replacement = .ok N := by
          unfold getCharacterName
          rw [hro]
        have ham : s1._attachmentMap N = some slot.attachment := by
          rw [hs]
          show (s._attachmentMap.set N slot.attachment) N = _
          simp [StdMap.set]
        have hem : s1._equipMap N =
            some { pageState := true, pageAttachment := some s.nextAttachment } := by
          rw [hs]
          show (s._equipMap.set N _) N = _
          simp [StdMap.set]
        have hpg : s1.pages.deref s.nextPage =
            .ok { rendererObject := s.textureOf pngName } := by
          rw [hs]
          show Heap.deref (s.pages.write s.nextPage _) s.nextPage = _
          simp [Heap.deref, Heap.write]
        unfold SkeletonRenderer.resetSlot
        simp only [hderef, hty, ↓reduceIte, hcn, ham, hem, SkeletonRenderer.removeAttachment,
          hro, hpg]
        refine ⟨_, rfl, ?_, ?_, ?_, ?_⟩
        · rw [hs]
          show (s.attachments.write s.nextAttachment replacement).free s.nextAttachment = _
          funext q
          by_cases hq : q = s.nextAttachment
          · simp [Heap.free, hq, hfreeA]
          · simp [Heap.free, Heap.write, hq]
        · rw [hs]
          show (s.pages.write s.nextPage _).free s.nextPage = _
          funext q
          by_cases hq : q = s.nextPage
          · simp [Heap.free, hq, hfreeP]
          · simp [Heap.free, Heap.write, hq]
        · rw [hs]
          show (s._equipMap.set N _).erase N = _
          funext k
          by_cases hk : k = N
          · simp [StdMap.erase, hk, hfresh]
          · simp [StdMap.erase, StdMap.set, hk]
        · rw [hs]
          rfl
      obtain ⟨t, hmid1, ht1, ht2, ht3, ht4⟩ := hmid
      have hskip2 : ∀ x ∈ post, t.resetSlot N x = .ok (x, t) :=
        fun x hx => resetSlot_unnamed s t N x s.nextAttachment
          (fun q _ => by rw [ht1]) hfreeA (hwfpost x hx) (hpost x hx)
      have hdo : s1.drawOrder = pre ++ { slot with attachment := some s.nextAttachment } :: post := by
        rw [hs]
      have hloop : SkeletonRenderer.resetLoop N s1.drawOrder s1 =
          .ok (pre ++ slot :: post, t) := by
        rw [hdo, resetLoop_skip N pre _ s1 hskip1, resetLoop_cons, hmid1]
        simp only
        rw [resetLoop_all_skipped N post t hskip2]
      refine ⟨{ t with drawOrder := pre ++ slot :: post }, ?_, hsplit.symm, ht1, ht2, ht3, ht4⟩
      unfold SkeletonRenderer.reset
      rw [hloop]
    · rw [hfresh] at hst
      cases hst

theorem sampleRenderer_slotResettable :
    ∀ x ∈ sampleRenderer.drawOrder, sampleRenderer.slotResettable x := by
  intro x hx
  simp only [sampleRenderer, List.mem_cons, List.mem_singleton, List.not_mem_nil, or_false] at hx
  rcases hx with h | h <;> subst h
  · intro q hq
    have hq0 : q = 0 := (Option.some.inj hq).symm
    subst hq0
    exact ⟨sampleRegion "arm" "arm" 0, rfl, fun _ => rfl⟩
  · intro q hq
    have hq1 : q = 1 := (Option.some.inj hq).symm
    subst hq1
    exact ⟨sampleRegion "leg" "leg" 0, rfl, fun _ => rfl⟩

/-- The round trip on the sample renderer, where `arm` names slot 0 only: equip with
`img/hat.png`, then `reset("arm")` returns and slot 0 is back on its original. -/
theorem equip_reset_round_trip_sample :
    ∃ s2, sampleEquipped.reset "arm" = .ok s2 ∧ s2.drawOrder = sampleRenderer.drawOrder ∧
      s2.attachments = sampleRenderer.attachments ∧ s2.pages = sampleRenderer.pages ∧
      s2._equipMap = sampleRenderer._equipMap ∧
      s2._attachmentMap = sampleRenderer._attachmentMap.set "arm" sampleSlot0.attachment :=
  equip_reset_round_trip sampleRenderer sampleEquipped "arm" "img/hat.png" [] [sampleSlot1]
    sampleSlot0 rfl (fun _ hx => absurd hx (List.not_mem_nil _)) (by decide)
    (by
      intro x hx
      rw [List.mem_singleton.1 hx]
      decide)
    rfl sampleRenderer_slotResettable rfl rfl sampleEquipped_ok

/-- C3 (witness): on the sample renderer, which has the blend function set by
`initialize`, the normal blend mode, being none of additive, multiply and screen,
gives the node's own blend function. -/
theorem blendFuncFor_table_witness :
    sampleRenderer.blendFuncFor .SP_BLEND_MODE_NORMAL =
      (BlendFunc.ALPHA_PREMULTIPLIED.src, BlendFunc.ALPHA_PREMULTIPLIED.dst) :=
  (blendFuncFor_table sampleRenderer BlendFunc.ALPHA_PREMULTIPLIED sampleSlot0 ⟨1, 1⟩ 1 1 1 1
    (-1)).2.2.2.1 .SP_BLEND_MODE_NORMAL (by decide) (by decide) (by decide)

/-- C8 (witness): the sample renderer has an empty properties map, so `arm` is
visible and the query leaves the renderer as it was. -/
theorem isAttachmentVisible_default_witness :
    sampleRenderer._propertiesMap "arm" = none ∧
    sampleRenderer._propertiesMap = StdMap.empty ∧
    (sampleRenderer.isAttachmentVisible "arm").1 = true ∧
    (sampleRenderer.isAttachmentVisible "arm").2 = sampleRenderer :=
  ⟨rfl, rfl, (isAttachmentVisible_default sampleRenderer "arm").1 rfl,
    (isAttachmentVisible_default sampleRenderer "arm").2.2⟩

/-- C11: the visibility override and the colour override of one attachment name are
independent. On a name with an entry, `setVisibilityForAttachment` replaces the
visibility and keeps `isColorSet` and `r, g, b, a`, and `setColorForAttachment` sets
`isColorSet` and `r, g, b, a` and keeps the visibility, so a hidden attachment stays
hidden; on a name without an entry the first creates one with `isColorSet` false
and the second creates one with visibility true; entries of other names are not
touched. -/
theorem attachment_overrides_independent (self : SkeletonRenderer) (N : String) (v : Bool)
    (col : Color4B) :
    (∀ entry, self._propertiesMap N = some entry →
      (self.setVisibilityForAttachment N v)._propertiesMap N =
          some { entry with visibility := v } ∧
        (self.setColorForAttachment N col)._propertiesMap N =
          some { entry with isColorSet := true, r := col.r, g := col.g, b := col.b,
                            a := col.a } ∧
        (entry.visibility = false →
          ((self.setColorForAttachment N col).isAttachmentVisible N).1 = false)) ∧
    (self._propertiesMap N = none →
      (∃ entry, (self.setVisibilityForAttachment N v)._propertiesMap N = some entry ∧
        entry.visibility = v ∧ entry.isColorSet = false) ∧
      (self.setColorForAttachment N col)._propertiesMap N =
        some { visibility := true, isColorSet := true, r := col.r, g := col.g, b := col.b,
               a := col.a }) ∧
    (∀ M, M ≠ N →
      (self.setVisibilityForAttachment N v)._propertiesMap M = self._propertiesMap M ∧
      (self.setColorForAttachment N col)._propertiesMap M = self._propertiesMap M) := by
  refine ⟨?_, ?_, ?_⟩
  · intro entry hentry
    have hvis : (self.setVisibilityForAttachment N v)._propertiesMap N =
        some { entry with visibility := v } := by
      unfold SkeletonRenderer.setVisibilityForAttachment
      rw [hentry]
      cases hc : entry.isColorSet <;> simp [StdMap.set, hc]
    have hcol : (self.setColorForAttachment N col)._propertiesMap N =
        some { entry with isColorSet := true, r := col.r, g := col.g, b := col.b,
                          a := col.a } := by
      unfold SkeletonRenderer.setColorForAttachment
      rw [hentry]
      simp [StdMap.set]
    refine ⟨hvis, hcol, ?_⟩
    intro hhidden
    unfold SkeletonRenderer.isAttachmentVisible
    rw [hcol]
    exact hhidden
  · intro hnone
    constructor
    · unfold SkeletonRenderer.setVisibilityForAttachment
      rw [hnone]
      refine ⟨{ visibility := v, isColorSet := false, r := 0, g := 0, b := 0, a := 0 },
        ?_, rfl, rfl⟩
      simp [StdMap.set]
    · unfold SkeletonRenderer.setColorForAttachment
      rw [hnone]
      simp [StdMap.set]
  · intro M hM
    constructor
    · unfold SkeletonRenderer.setVisibilityForAttachment
      cases self._propertiesMap N <;> simp [StdMap.set, hM]
    · unfold SkeletonRenderer.setColorForAttachment
      cases self._propertiesMap N <;> simp [StdMap.set, hM]

/-- C11 (witness): `arm` has no entry on the sample renderer; after hiding it, it has
one, and colouring it then keeps it hidden. -/
theorem attachment_overrides_independent_witness :
    sampleRenderer._propertiesMap "arm" = none ∧
    (sampleRenderer.setVisibilityForAttachment "arm" false)._propertiesMap "arm" =
      some { visibility := false, isColorSet := false, r := 0, g := 0, b := 0, a := 0 } ∧
    (((sampleRenderer.setVisibilityForAttachment "arm" false).setColorForAttachment "arm"
        ⟨255, 0, 0, 255⟩).isAttachmentVisible "arm").1 = false ∧
    (sampleRenderer.setColorForAttachment "arm" ⟨255, 0, 0, 255⟩)._propertiesMap "arm" =
      some { visibility := true, isColorSet := true, r := 255, g := 0, b := 0, a := 255 } :=
  ⟨rfl, rfl,
    ((attachment_overrides_independent
        (sampleRenderer.setVisibilityForAttachment "arm" false) "arm" false
        ⟨255, 0, 0, 255⟩).1 _ rfl).2.2 rfl,
    ((attachment_overrides_independent sampleRenderer "arm" false ⟨255, 0, 0, 255⟩).2.1
      rfl).2⟩

/-- Every result of `setAttachmentPng(N, pngName)` on a renderer in which `N` is not
equipped has the first slot in draw order whose region attachment is called `N`
pointing at the new replacement (a different pointer when the next address is free)
and every other slot as it was; when no slot's region attachment is called `N`, the
result is the renderer itself. -/
theorem setAttachmentPng_first_slot_of_ok (s s1 : SkeletonRenderer) (N pngName : String)
    (h : s.setAttachmentPng N pngName = .ok s1) :
    (∀ pre slot post, s.drawOrder = pre ++ slot :: post →
      (∀ x ∈ pre, s.regionNameOf x ≠ some N) → s.regionNameOf slot = some N →
      s._equipMap N = none →
      s1.drawOrder = pre ++ { slot with attachment := some s.nextAttachment } :: post ∧
      (s.attachments s.nextAttachment = none → slot.attachment ≠ some s.nextAttachment)) ∧
    ((∀ x ∈ s.drawOrder, s.regionNameOf x ≠ some N) → s1 = s) := by
  constructor
  · intro pre slot post hsplit hpre hslot hfresh
    constructor
    · rcases setAttachmentPng_ok s s1 N pngName h with
        ⟨hno, _⟩ | ⟨pre1, slot1, post1, hsplit1, hpre1, hslot1, hcase⟩
      · exact absurd hslot (hno slot (by rw [hsplit]; simp))
      · obtain ⟨e1, e2, e3⟩ := first_split_unique (fun x => s.regionNameOf x = some N)
          pre pre1 post post1 slot slot1 (hsplit.symm.trans hsplit1) hpre hslot hpre1 hslot1
        rcases hcase with ⟨_, replacement, hs, _⟩ | ⟨⟨status, hst, _⟩, _⟩
        · rw [hs, e1, e2, e3]
        · rw [hfresh] at hst
          cases hst
    · intro hfree hc
      unfold SkeletonRenderer.regionNameOf at hslot
      rw [hc] at hslot
      simp only [hfree] at hslot
      cases hslot
  · intro hno
    rcases setAttachmentPng_ok s s1 N pngName h with
      ⟨_, hs⟩ | ⟨pre1, slot1, post1, hsplit1, _, hslot1, _⟩
    · exact hs
    · exact absurd hslot1 (hno slot1 (by rw [hsplit1]; simp))

theorem twoArmEquipped_ok :
    twoArmRenderer.setAttachmentPng "arm" "img/hat.png" = .ok twoArmEquipped := by
  rfl

/-- C12 (failing input): after `setColorForAttachment("arm", (255, 0, 0, 255))` on the
sample renderer the draw returns and normalises the node colour to `255 / 255`, but
the visible region attachment `arm` is drawn with red `255`, green `0`, blue `0`
taken from the entry as they are, not with `255 / 255`; its alpha stays `1`, and
`leg`, which has no entry, keeps its own colour. -/
theorem drawSkeleton_color_override_not_normalised :
    sampleColored._propertiesMap "arm" =
      some { visibility := true, isColorSet := true, r := 255, g := 0, b := 0, a := 255 } ∧
    (∃ self1 events, sampleColored.drawSkeleton = .ok (self1, events) ∧
      self1.skeletonR = ((255 : Nat) : ℚ) / 255) ∧
    (drawnItems sampleColored.drawSkeleton).map
        (fun item => (item.slot.index, item.r, item.g, item.b, item.a)) =
      [(0, ((255 : Nat) : ℚ), ((0 : Nat) : ℚ), ((0 : Nat) : ℚ), 1), (1, 1, 1, 1, 1)] ∧
    ((255 : Nat) : ℚ) ≠ ((255 : Nat) : ℚ) / 255 := by
  refine ⟨rfl, ⟨_, _, rfl, rfl⟩, rfl, ?_⟩
  norm_num

/-- Lines 366-392 of `setAttachmentPng`: a successful `applyPng` leaves the
attachment at address `q` sized from the texture of its page, with offsets 0 and
width and height the pixel sizes times `_scale`. -/
theorem applyPng_sizes (s s1 : SkeletonRenderer) (rawName : String) (q : Nat)
    (h : s.applyPng rawName q = .ok s1) :
    ∃ att0 att1 texture, s.attachments q = some att0 ∧
      s.getTexture att0 = .ok (some texture) ∧ s1.attachments q = some att1 ∧
      att1.regionOffsetX = 0 ∧ att1.regionOffsetY = 0 ∧
      att1.regionWidth = texture.pixelsWide ∧
      att1.regionOriginalWidth = texture.pixelsWide ∧
      att1.regionHeight = texture.pixelsHigh ∧
      att1.regionOriginalHeight = texture.pixelsHigh ∧
      att1.width = ((texture.pixelsWide : Int) : ℚ) * s._scale ∧
      att1.height = ((texture.pixelsHigh : Int) : ℚ) * s._scale := by
  unfold SkeletonRenderer.applyPng at h
  cases h0 : s.attachments q with
  | none => simp [Heap.deref, h0] at h
  | some att0 =>
    have hderef : s.attachments.deref q = .ok att0 := by
      unfold Heap.deref
      rw [h0]
    simp only [hderef] at h
    cases hg : s.getTexture att0 with
    | error e => simp [hg] at h
    | ok tex =>
      simp only [hg] at h
      cases ho : s.getAttachmentOffset rawName with
      | error e => simp [ho] at h
      | ok regionAttachement =>
        simp only [ho] at h
        cases hsrc : s.attachments.derefNullable regionAttachement with
        | error e => simp [hsrc] at h
        | ok source =>
          simp only [hsrc] at h
          cases tex with
          | none => simp at h
          | some texture =>
            simp only [Except.ok.injEq] at h
            have hw : ∀ (heap : Heap spAttachment) (a : spAttachment),
                (heap.write q a) q = some a := by
              intro heap a
              simp [Heap.write]
            subst h
            exact ⟨att0, _, texture, rfl, hg, hw _ _, rfl, rfl, rfl, rfl, rfl, rfl, rfl, rfl⟩

/-- The scale member after construction: `createWithFile` stores its argument,
`createWithData` leaves the member as the new object had it. -/
theorem scale_after_create (node : SkeletonRenderer) (skeleton : spSkeleton) (owns : Bool)
    (atlas : Nat) (scale : ℚ) :
    (node.createWithData skeleton owns)._scale = node._scale ∧
      (node.createWithFile skeleton scale)._scale = scale ∧
      (node.createWithAtlasFile atlas skeleton scale)._scale = scale :=
  ⟨rfl, rfl, rfl⟩

/-- C14 (failing input): a renderer made by `createWithData` from a new object whose
`_scale` member holds `junk`: no scale is set during initialisation, and after
`setAttachmentPng("arm", "img/hat.png")` with a 10 by 20 texture the replacement has
offsets 0 and region sizes 10 and 20, but width `10 * junk` and height `20 * junk`.
The same on a renderer made by `createWithFile` with `scale` gives `10 * scale` and
`20 * scale`. -/
theorem setAttachmentPng_size_after_createWithData (junk scale : ℚ) :
    ((newNode junk).createWithData sampleSkeleton true)._scale = junk ∧
    ((dataEquipped junk).attachments 3).map
        (fun a => (a.regionOffsetX, a.regionOffsetY, a.regionWidth, a.regionOriginalWidth,
          a.regionHeight, a.regionOriginalHeight, a.width, a.height)) =
      some (0, 0, 10, 10, 20, 20, (((10 : Nat) : Int) : ℚ) * junk,
        (((20 : Nat) : Int) : ℚ) * junk) ∧
    ((newNode junk).createWithFile sampleSkeleton scale)._scale = scale ∧
    ((fileEquipped junk scale).attachments 3).map
        (fun a => (a.regionOffsetX, a.regionOffsetY, a.regionWidth, a.regionOriginalWidth,
          a.regionHeight, a.regionOriginalHeight, a.width, a.height)) =
      some (0, 0, 10, 10, 20, 20, (((10 : Nat) : Int) : ℚ) * scale,
        (((20 : Nat) : Int) : ℚ) * scale) :=
  ⟨rfl, rfl, rfl, rfl⟩

/-- An iteration of the `reset()` loop on a valid slot of a renderer whose maps have
no entry for the slot's name: a slot without region attachment is passed over, a
slot with one makes the loop erase the end iterator of `_equipMap`. -/
theorem resetAllSlot_never_equipped (s : SkeletonRenderer) (slot : spSlot)
    (hA : s._attachmentMap = StdMap.empty) (hE : s._equipMap = StdMap.empty)
    (hwf : s.slotResettable slot) :
    (s.regionNameOf slot = none → s.resetAllSlot slot = .ok (slot, s)) ∧
    ((s.regionNameOf slot).isSome = true → s.resetAllSlot slot = .error .eraseEnd) := by
  unfold SkeletonRenderer.resetAllSlot
  cases hatt : slot.attachment with
  | none =>
    refine ⟨fun _ => rfl, ?_⟩
    intro h
    simp [SkeletonRenderer.regionNameOf, hatt] at h
  | some q =>
    obtain ⟨att, hq, hreg⟩ := hwf q hatt
    have hderef : s.attachments.deref q = .ok att := by
      unfold Heap.deref
      rw [hq]
    simp only [hderef]
    by_cases hty : att.type = .SP_ATTACHMENT_REGION
    · simp only [hty, ↓reduceIte]
      cases hro : att.rendererObject with
      | none =>
        have := hreg hty
        rw [hro] at this
        cases this
      | some region =>
        have hcn : getCharacterName att = .ok region.name := by
          unfold getCharacterName
          rw [hro]
        constructor
        · intro h
          simp [SkeletonRenderer.regionNameOf, hatt, hq, hty, hro] at h
        · intro _
          simp only [hcn, hA, hE, StdMap.empty]
    · simp only [hty, ↓reduceIte]
      constructor
      · intro _
        trivial
      · intro h
        simp [SkeletonRenderer.regionNameOf, hatt, hq, hty] at h

/-- On every renderer whose maps are empty (`setAttachmentPng` was never called),
whose slots are valid and one of whose slots holds a region attachment, `reset()`
erases the end iterator of `_equipMap`. -/
theorem resetAllLoop_never_equipped (s : SkeletonRenderer) (slots : List spSlot)
    (hA : s._attachmentMap = StdMap.empty) (hE : s._equipMap = StdMap.empty)
    (hwf : ∀ x ∈ slots, s.slotResettable x)
    (hregion : ∃ x ∈ slots, (s.regionNameOf x).isSome = true) :
    SkeletonRenderer.resetAllLoop slots s = .error .eraseEnd := by
  induction slots with
  | nil =>
    obtain ⟨x, hx, _⟩ := hregion
    cases hx
  | cons slot rest ih =>
    unfold SkeletonRenderer.resetAllLoop
    obtain ⟨h1, h2⟩ := resetAllSlot_never_equipped s slot hA hE
      (hwf slot (List.mem_cons_self _ _))
    cases hn : s.regionNameOf slot with
    | some name =>
      rw [h2 (by rw [hn]; rfl)]
    | none =>
      rw [h1 hn]
      simp only
      have hrest : ∃ x ∈ rest, (s.regionNameOf x).isSome = true := by
        obtain ⟨x, hx, hxn⟩ := hregion
        rcases List.mem_cons.1 hx with hx | hx
        · rw [hx, hn] at hxn
          cases hxn
        · exact ⟨x, hx, hxn⟩
      rw [ih (fun x hx => hwf x (List.mem_cons_of_mem _ hx)) hrest]

/-- C15 (failing input): on the sample renderer, on which `setAttachmentPng` was never
called (both maps are empty), `reset()` does not leave the renderer unchanged: at
slot 0 it inserts a null entry for `arm` in `_attachmentMap` and erases the end
iterator of `_equipMap`. -/
theorem resetAll_faults_on_never_equipped :
    sampleRenderer._attachmentMap = StdMap.empty ∧
    sampleRenderer._equipMap = StdMap.empty ∧
    sampleRenderer.resetAll = .error .eraseEnd :=
  ⟨rfl, rfl, rfl⟩

/-- With no saved original for `N` in `_attachmentMap`, `reset(N)` on a renderer
with valid slots returns and changes nothing. -/
theorem reset_noop_without_saved (s : SkeletonRenderer) (N : String)
    (hA : s._attachmentMap N = none) (hwf : ∀ x ∈ s.drawOrder, s.slotResettable x) :
    s.reset N = .ok s := by
  have hslot : ∀ x ∈ s.drawOrder, s.resetSlot N x = .ok (x, s) := by
    intro x hx
    unfold SkeletonRenderer.resetSlot
    cases hatt : x.attachment with
    | none => rfl
    | some q =>
      obtain ⟨att, hq, hreg⟩ := hwf x hx q hatt
      have hderef : s.attachments.deref q = .ok att := by
        unfold Heap.deref
        rw [hq]
      simp only [hderef]
      by_cases hty : att.type = .SP_ATTACHMENT_REGION
      · simp only [hty, ↓reduceIte]
        cases hro : att.rendererObject with
        | none =>
          have := hreg hty
          rw [hro] at this
          cases this
        | some region =>
          have hcn : getCharacterName att = .ok region.name := by
            unfold getCharacterName
            rw [hro]
          simp only [hcn]
          by_cases hN : N = region.name
          · rw [← hN]
            simp only [↓reduceIte, hA]
          · simp only [hN, ↓reduceIte]
      · simp only [hty, ↓reduceIte]
  unfold SkeletonRenderer.reset
  rw [resetLoop_all_skipped N s.drawOrder s hslot]

theorem sampleEquippedReset_ok : sampleEquipped.reset "arm" = .ok sampleEquippedReset := by
  rfl

/-- C16 (failing input): on the sample renderer, after `setAttachmentPng("arm",
"img/hat.png")` and `reset("arm")`, `arm` has no entry in `_equipMap` but its saved
original is still in `_attachmentMap`; a second `reset("arm")` is not a no-op: at
slot 0 it erases the end iterator of `_equipMap`. -/
theorem reset_twice_faults :
    sampleRenderer.setAttachmentPng "arm" "img/hat.png" = .ok sampleEquipped ∧
    sampleEquipped.reset "arm" = .ok sampleEquippedReset ∧
    sampleEquippedReset._equipMap "arm" = none ∧
    sampleEquippedReset._attachmentMap "arm" = some (some 0) ∧
    sampleEquippedReset.reset "arm" = .error .eraseEnd :=
  ⟨rfl, rfl, rfl, rfl, rfl⟩

/-- C17 (failing input): for one region attachment with world vertices (-2,-2),
(-1,-2), (-1,-1), (-2,-1), scale 1 and position (0,0), `getBoundingBox` returns the
origin (-2,-2) with size `FLT_MIN + 2` in both directions, because the maxima start
at `FLT_MIN`, a positive number; the tight box has size 1. -/
theorem getBoundingBox_negative_coordinates :
    negativeRenderer.getBoundingBox =
      .ok { x := 0 + -2, y := 0 + -2, width := FLT_MIN - -2, height := FLT_MIN - -2 } ∧
    0 < FLT_MIN ∧ FLT_MIN - -2 ≠ (-1 : ℚ) - -2 := by
  refine ⟨?_, ?_, ?_⟩
  · simp [SkeletonRenderer.getBoundingBox, SkeletonRenderer.boundsSlots,
      SkeletonRenderer.boundsSlot, SkeletonRenderer.slots, negativeRenderer, sampleRenderer,
      sampleSlot0, Heap.deref, sampleRegion, spRegionAttachment_create, boundsLoop, FLT_MAX,
      FLT_MIN]
    norm_num
  · norm_num [FLT_MIN]
  · norm_num [FLT_MIN]

/-- Lines 367-379 of `setAttachmentPng`: when the lookup of the raw name finds no
region attachment, `applyPng` on a valid attachment dereferences the null result. -/
theorem applyPng_missing_offset (s : SkeletonRenderer) (rawName : String) (q : Nat)
    (att : spAttachment) (tex : Option Texture2D) (hq : s.attachments q = some att)
    (htex : s.getTexture att = .ok tex) (hoff : s.getAttachmentOffset rawName = .ok none) :
    s.applyPng rawName q = .error .nullDeref := by
  unfold SkeletonRenderer.applyPng
  have hderef : s.attachments.deref q = .ok att := by
    unfold Heap.deref
    rw [hq]
  simp only [hderef, htex, hoff, Heap.derefNullable]

/-- C18 (failing input): the engine loads `img/cap.png`, whose raw name `cap` names no
region attachment of the sample skeleton (`getAttachmentOffset` returns null);
`setAttachmentPng("arm", "img/cap.png")` reads the fields of that null result. -/
theorem setAttachmentPng_missing_raw_name :
    capRenderer.textureOf "img/cap.png" = some ⟨10, 20⟩ ∧
    rawNameOf "img/cap.png" = "cap" ∧
    capRenderer.getAttachmentOffset (rawNameOf "img/cap.png") = .ok none ∧
    capRenderer.setAttachmentPng "arm" "img/cap.png" = .error .nullDeref := by
  refine ⟨rfl, by decide, rfl, rfl⟩

/-- The lookup loop gives the same result on a renderer with the same skin lookup
whose heap keeps every attachment that was live; the attachment found is live. -/
theorem getAttachmentOffsetFrom_mono (s t : SkeletonRenderer) (name : String)
    (hidx : t.attachmentForSlotIndex = s.attachmentForSlotIndex)
    (hmono : ∀ p a, s.attachments p = some a → t.attachments p = some a)
    (fuel i : Nat) (r : Option Nat)
    (h : s.getAttachmentOffsetFrom name fuel i = .ok r) :
    t.getAttachmentOffsetFrom name fuel i = .ok r ∧
      ∀ p, r = some p → ∃ a, s.attachments p = some a := by
  induction fuel generalizing i with
  | zero =>
    simp only [SkeletonRenderer.getAttachmentOffsetFrom, Except.ok.injEq] at h
    refine ⟨by rw [← h]; rfl, ?_⟩
    intro p hp
    rw [← h] at hp
    cases hp
  | succ n ih =>
    unfold SkeletonRenderer.getAttachmentOffsetFrom at h ⊢
    rw [hidx]
    cases hlook : s.attachmentForSlotIndex i name with
    | none =>
      simp only [hlook] at h
      exact ih (i + 1) h
    | some p =>
      simp only [hlook] at h
      cases hp : s.attachments p with
      | none => simp [Heap.deref, hp] at h
      | some a =>
        have hs : s.attachments.deref p = .ok a := by
          unfold Heap.deref
          rw [hp]
        have ht : t.attachments.deref p = .ok a := by
          unfold Heap.deref
          rw [hmono p a hp]
        simp only [hs] at h
        simp only [ht]
        by_cases hty : a.type = .SP_ATTACHMENT_REGION
        · simp only [hty, ↓reduceIte, Except.ok.injEq] at h ⊢
          refine ⟨h, ?_⟩
          intro q hq
          rw [← h] at hq
          cases hq
          exact ⟨a, hp⟩
        · simp only [hty, ↓reduceIte] at h ⊢
          exact ih (i + 1) h

/-- Lines 366-392 return when the attachment at `q` is live and its page has a
texture, and the lookup of the raw name finds a live attachment. -/
theorem applyPng_returns (t : SkeletonRenderer) (rawName : String) (q src : Nat)
    (att source : spAttachment) (texture : Texture2D)
    (hq : t.attachments q = some att) (htex : t.getTexture att = .ok (some texture))
    (hoff : t.getAttachmentOffset rawName = .ok (some src))
    (hsrc : t.attachments src = some source) :
    ∃ t1, t.applyPng rawName q = .ok t1 := by
  unfold SkeletonRenderer.applyPng
  have h1 : t.attachments.deref q = .ok att := by
    unfold Heap.deref
    rw [hq]
  have h2 : t.attachments.derefNullable (some src) = .ok source := by
    simp only [Heap.derefNullable, Heap.deref, hsrc]
  simp only [h1, htex, hoff, h2]
  exact ⟨_, rfl⟩

/-- The texture of an attachment whose atlas region points at a live page. -/
theorem getTexture_of_page (t : SkeletonRenderer) (att : spAttachment) (region : spAtlasRegion)
    (pg : Nat) (page : spAtlasPage) (hr : att.rendererObject = some region)
    (hp : region.page = some pg) (hpage : t.pages pg = some page) :
    t.getTexture att = .ok page.rendererObject := by
  unfold SkeletonRenderer.getTexture
  simp only [hr, hp, Heap.derefNullable, Heap.deref, hpage]

/-- The first equip returns when the next attachment address is free, the raw name
names a region attachment and the engine loads the image. -/
theorem equipNewPage_returns (s : SkeletonRenderer) (N pngName rawName : String)
    (slot : spSlot) (src : Nat)
    (hfreeA : s.attachments s.nextAttachment = none)
    (hoff : s.getAttachmentOffset rawName = .ok (some src))
    (htex : (s.textureOf pngName).isSome = true) :
    ∃ slot1 s1, s.equipNewPage N pngName N rawName slot = .ok (slot1, s1) := by
  obtain ⟨texture, htexture⟩ := Option.isSome_iff_exists.1 htex
  have hmono : ∀ p a, s.attachments p = some a →
      (s.afterEquip N pngName slot.attachment
        { spRegionAttachment_create N with
          rendererObject := some { name := N, rotate := false, page := some s.nextPage } }
        ).attachments p = some a := by
    intro p a hp
    show (s.attachments.write s.nextAttachment _) p = some a
    have hne : p ≠ s.nextAttachment := by
      intro hc
      rw [hc, hfreeA] at hp
      cases hp
    simp [Heap.write, hne, hp]
  obtain ⟨hoff1, hlive⟩ := getAttachmentOffsetFrom_mono s
    (s.afterEquip N pngName slot.attachment
      { spRegionAttachment_create N with
        rendererObject := some { name := N, rotate := false, page := some s.nextPage } })
    rawName rfl hmono s.slotsCount 0 (some src) hoff
  obtain ⟨source, hsource⟩ := hlive src rfl
  have hpage : (s.afterEquip N pngName slot.attachment
      { spRegionAttachment_create N with
        rendererObject := some { name := N, rotate := false, page := some s.nextPage } }
      ).pages s.nextPage = some { rendererObject := s.textureOf pngName } := by
    show (s.pages.write s.nextPage _) s.nextPage = _
    simp [Heap.write]
  have hgt := getTexture_of_page
    (s.afterEquip N pngName slot.attachment
      { spRegionAttachment_create N with
        rendererObject := some { name := N, rotate := false, page := some s.nextPage } })
    { spRegionAttachment_create N with
      rendererObject := some { name := N, rotate := false, page := some s.nextPage } }
    { name := N, rotate := false, page := some s.nextPage } s.nextPage
    { rendererObject := s.textureOf pngName } rfl rfl hpage
  rw [htexture] at hgt
  obtain ⟨t1, ht1⟩ := applyPng_returns
    (s.afterEquip N pngName slot.attachment
      { spRegionAttachment_create N with
        rendererObject := some { name := N, rotate := false, page := some s.nextPage } })
    rawName s.nextAttachment src
    { spRegionAttachment_create N with
      rendererObject := some { name := N, rotate := false, page := some s.nextPage } }
    source texture
    (by
      show (s.attachments.write s.nextAttachment _) s.nextAttachment = _
      simp [Heap.write])
    hgt hoff1 (hmono src source hsource)
  refine ⟨{ slot with attachment := some s.nextAttachment }, t1, ?_⟩
  have hunfold : s.equipNewPage N pngName N rawName slot =
      (match (s.afterEquip N pngName slot.attachment
          { spRegionAttachment_create N with
            rendererObject := some { name := N, rotate := false, page := some s.nextPage } }
          ).applyPng rawName s.nextAttachment with
        | Except.error e => Except.error e
        | Except.ok self4 =>
          Except.ok ({ slot with attachment := some s.nextAttachment }, self4)) := rfl
  rw [hunfold, ht1]

/-- A slot whose `regionNameOf` is `N` holds a live region attachment on an atlas
region called `N`. -/
theorem regionNameOf_some (s : SkeletonRenderer) (slot : spSlot) (N : String)
    (h : s.regionNameOf slot = some N) :
    ∃ p att region, slot.attachment = some p ∧ s.attachments p = some att ∧
      att.type = .SP_ATTACHMENT_REGION ∧ att.rendererObject = some region ∧
      region.name = N := by
  unfold SkeletonRenderer.regionNameOf at h
  cases hatt : slot.attachment with
  | none => simp [hatt] at h
  | some p =>
    cases hp : s.attachments p with
    | none => simp [hatt, hp] at h
    | some att =>
      by_cases hty : att.type = .SP_ATTACHMENT_REGION
      · cases hro : att.rendererObject with
        | none => simp [hatt, hp, hty, hro] at h
        | some region =>
          simp only [hatt, hp, hty, ↓reduceIte, hro, Option.some.injEq] at h
          exact ⟨p, att, region, rfl, hp, hty, hro, h⟩
      · simp [hatt, hp, hty] at h

/-- An iteration of the `setAttachmentPng` loop on a valid slot: a slot that is not
a region attachment called `N` is passed over, and one that is makes the loop return
once the name is in `_avoidDuplication`; `t` is a renderer whose attachment heap
keeps every live attachment of `s`. -/
theorem setAttachmentPngSlot_pass (s t : SkeletonRenderer) (N pngName : String)
    (slot : spSlot) (avoid : StdMap Bool)
    (hagree : ∀ q att, s.attachments q = some att → t.attachments q = some att)
    (hwf : s.slotResettable slot) :
    (s.regionNameOf slot ≠ some N →
      t.setAttachmentPngSlot N pngName slot avoid = .ok (false, slot, avoid, t)) ∧
    (s.regionNameOf slot = some N → (avoid N).isSome = true →
      t.setAttachmentPngSlot N pngName slot avoid = .ok (true, slot, avoid, t)) := by
  unfold SkeletonRenderer.setAttachmentPngSlot
  cases hatt : slot.attachment with
  | none =>
    refine ⟨fun _ => rfl, ?_⟩
    intro h
    simp [SkeletonRenderer.regionNameOf, hatt] at h
  | some q =>
    obtain ⟨att, hq, hreg⟩ := hwf q hatt
    have hderef : t.attachments.deref q = .ok att := by
      unfold Heap.deref
      rw [hagree q att hq]
    simp only [hderef]
    by_cases hty : att.type = .SP_ATTACHMENT_REGION
    · simp only [hty, ↓reduceIte]
      cases hro : att.rendererObject with
      | none =>
        have := hreg hty
        rw [hro] at this
        cases this
      | some region =>
        have hcn : getCharacterName att = .ok region.name := by
          unfold getCharacterName
          rw [hro]
        have hrn : s.regionNameOf slot = some region.name := by
          simp [SkeletonRenderer.regionNameOf, hatt, hq, hty, hro]
        simp only [hcn]
        constructor
        · intro hname
          have hN : ¬ N = region.name := by
            intro hc
            apply hname
            rw [hrn, hc]
          simp only [hN, ↓reduceIte]
        · intro hname havoid
          have hN : N = region.name := by
            rw [hrn] at hname
            exact (Option.some.inj hname).symm
          rw [← hN]
          obtain ⟨v, hv⟩ := Option.isSome_iff_exists.1 havoid
          simp only [↓reduceIte, hv]
    · simp only [hty, ↓reduceIte]
      refine ⟨fun _ => trivial, ?_⟩
      intro h
      simp [SkeletonRenderer.regionNameOf, hatt, hq, hty] at h

theorem setAttachmentPngLoop_cons (N pngName : String) (x : spSlot) (xs : List spSlot)
    (avoid : StdMap Bool) (t : SkeletonRenderer) :
    SkeletonRenderer.setAttachmentPngLoop N pngName (x :: xs) avoid t =
      match t.setAttachmentPngSlot N pngName x avoid with
      | .error e => .error e
      | .ok (true, slot1, _, t1) => .ok (slot1 :: xs, t1)
      | .ok (false, slot1, avoid1, t1) =>
        match SkeletonRenderer.setAttachmentPngLoop N pngName xs avoid1 t1 with
        | .error e => .error e
        | .ok (rest1, t2) => .ok (slot1 :: rest1, t2) := by
  rw [SkeletonRenderer.setAttachmentPngLoop]

/-- With the name in `_avoidDuplication`, the `setAttachmentPng` loop over valid
slots returns and changes nothing. -/
theorem setAttachmentPngLoop_avoided_returns (s t : SkeletonRenderer) (N pngName : String)
    (slots : List spSlot) (avoid : StdMap Bool)
    (hagree : ∀ q att, s.attachments q = some att → t.attachments q = some att)
    (hwf : ∀ x ∈ slots, s.slotResettable x)
    (havoid : (avoid N).isSome = true) :
    SkeletonRenderer.setAttachmentPngLoop N pngName slots avoid t = .ok (slots, t) := by
  induction slots with
  | nil => rfl
  | cons x xs ih =>
    obtain ⟨hpass, hret⟩ := setAttachmentPngSlot_pass s t N pngName x avoid hagree
      (hwf x (List.mem_cons_self _ _))
    rw [setAttachmentPngLoop_cons]
    by_cases hname : s.regionNameOf x = some N
    · rw [hret hname havoid]
    · rw [hpass hname]
      simp only
      rw [ih (fun y hy => hwf y (List.mem_cons_of_mem _ hy))]

/-- The `setAttachmentPng` loop passes over a prefix of valid slots that are not
region attachments called `N`. -/
theorem setAttachmentPngLoop_skip (s : SkeletonRenderer) (N pngName : String)
    (pre rest : List spSlot) (avoid : StdMap Bool)
    (hwf : ∀ x ∈ pre, s.slotResettable x)
    (hpre : ∀ x ∈ pre, s.regionNameOf x ≠ some N) :
    SkeletonRenderer.setAttachmentPngLoop N pngName (pre ++ rest) avoid s =
      match SkeletonRenderer.setAttachmentPngLoop N pngName rest avoid s with
      | .error e => .error e
      | .ok (rest1, t) => .ok (pre ++ rest1, t) := by
  induction pre with
  | nil =>
    simp only [List.nil_append]
    cases h : SkeletonRenderer.setAttachmentPngLoop N pngName rest avoid s with
    | error e => rfl
    | ok res => rfl
  | cons x xs ih =>
    have hx := (setAttachmentPngSlot_pass s s N pngName x avoid (fun _ _ h => h)
      (hwf x (List.mem_cons_self _ _))).1 (hpre x (List.mem_cons_self _ _))
    have hxs := ih (fun y hy => hwf y (List.mem_cons_of_mem _ hy))
      (fun y hy => hpre y (List.mem_cons_of_mem _ hy))
    rw [List.cons_append, setAttachmentPngLoop_cons, hx]
    simp only
    rw [hxs]
    cases h : SkeletonRenderer.setAttachmentPngLoop N pngName rest avoid s with
    | error e => rfl
    | ok res => rfl

/-- The iteration on the first slot called `N` of a renderer in which `N` is not
equipped returns when the next address is free, the raw name names a region
attachment and the engine loads the image. -/
theorem setAttachmentPngSlot_equips (s : SkeletonRenderer) (N pngName : String) (slot : spSlot)
    (avoid : StdMap Bool) (src : Nat)
    (hslot : s.regionNameOf slot = some N) (havoid : avoid N = none)
    (hfresh : s._equipMap N = none)
    (hfreeA : s.attachments s.nextAttachment = none)
    (hoff : s.getAttachmentOffset (rawNameOf pngName) = .ok (some src))
    (htex : (s.textureOf pngName).isSome = true) :
    ∃ slot1 s1, s.setAttachmentPngSlot N pngName slot avoid =
      .ok (false, slot1, avoid.set N true, s1) := by
  obtain ⟨p, att, region, hatt, hp, hty, hro, hname⟩ := regionNameOf_some s slot N hslot
  obtain ⟨slot1, s1, hequip⟩ :=
    equipNewPage_returns s N pngName (rawNameOf pngName) slot src hfreeA hoff htex
  refine ⟨slot1, s1, ?_⟩
  unfold SkeletonRenderer.setAttachmentPngSlot
  have hderef : s.attachments.deref p = .ok att := by
    unfold Heap.deref
    rw [hp]
  have hcn : getCharacterName att = .ok N := by
    simp only [getCharacterName, hro, hname]
  simp only [hatt, hderef, hty, ↓reduceIte, hcn, havoid, hfresh, hequip]

/-- C13: on a renderer with valid slots, `setAttachmentPng(N, pngName)` with `N` not
equipped, the next attachment address free, the raw name of the image naming a
region attachment and the image loading returns, and in its result the first slot
in draw order whose region attachment is called `N` points at the new replacement,
a pointer different from the one it held, while every other slot is as it was, also
later slots showing the same name; when no slot's region attachment is called `N`
the call returns the renderer unchanged, slots and maps. -/
theorem setAttachmentPng_equips_first_slot (s : SkeletonRenderer) (N pngName : String)
    (hwf : ∀ x ∈ s.drawOrder, s.slotResettable x) :
    (∀ pre slot post src, s.drawOrder = pre ++ slot :: post →
      (∀ x ∈ pre, s.regionNameOf x ≠ some N) → s.regionNameOf slot = some N →
      s._equipMap N = none → s.attachments s.nextAttachment = none →
      s.getAttachmentOffset (rawNameOf pngName) = .ok (some src) →
      (s.textureOf pngName).isSome = true →
      ∃ s1, s.setAttachmentPng N pngName = .ok s1 ∧
        s1.drawOrder = pre ++ { slot with attachment := some s.nextAttachment } :: post ∧
        slot.attachment ≠ some s.nextAttachment) ∧
    ((∀ x ∈ s.drawOrder, s.regionNameOf x ≠ some N) → s.setAttachmentPng N pngName = .ok s) := by
  constructor
  · intro pre slot post src hsplit hpre hslot hfresh hfreeA hoff htex
    have hwfpre : ∀ x ∈ pre, s.slotResettable x :=
      fun x hx => hwf x (by rw [hsplit]; exact List.mem_append_left _ hx)
    have hwfpost : ∀ x ∈ post, s.slotResettable x :=
      fun x hx => hwf x (by
        rw [hsplit]
        exact List.mem_append_right _ (List.mem_cons_of_mem _ hx))
    obtain ⟨slot1, s4, hstep⟩ := setAttachmentPngSlot_equips s N pngName slot StdMap.empty src
      hslot rfl hfresh hfreeA hoff htex
    have hagree : ∀ q att, s.attachments q = some att → s4.attachments q = some att := by
      rcases setAttachmentPngSlot_ok s s4 N pngName slot slot1 StdMap.empty _ false hstep with
        ⟨_, _, _, _, hno⟩ | ⟨hc, _⟩ | ⟨_, _, _, _, _, _, replacement, hs, _⟩ |
        ⟨_, _, _, ⟨status, hst, _⟩, _⟩
      · exact absurd hslot hno
      · cases hc
      · intro q att hq
        have hne : q ≠ s.nextAttachment := by
          intro hc
          rw [hc, hfreeA] at hq
          cases hq
        rw [hs]
        show (s.attachments.write s.nextAttachment replacement) q = some att
        simp [Heap.write, hne, hq]
      · rw [hfresh] at hst
        cases hst
    have hpost := setAttachmentPngLoop_avoided_returns s s4 N pngName post
      ((StdMap.empty : StdMap Bool).set N true) hagree hwfpost
      (by simp [StdMap.set])
    have hloop : SkeletonRenderer.setAttachmentPngLoop N pngName s.drawOrder StdMap.empty s =
        .ok (pre ++ slot1 :: post, s4) := by
      rw [hsplit, setAttachmentPngLoop_skip s N pngName pre (slot :: post) StdMap.empty
        hwfpre hpre, setAttachmentPngLoop_cons, hstep]
      simp only
      rw [hpost]
    have hcall : s.setAttachmentPng N pngName =
        .ok { s4 with drawOrder := pre ++ slot1 :: post } := by
      unfold SkeletonRenderer.setAttachmentPng
      rw [hloop]
    exact ⟨_, hcall,
      ((setAttachmentPng_first_slot_of_ok s _ N pngName hcall).1 pre slot post hsplit hpre
        hslot hfresh).1,
      ((setAttachmentPng_first_slot_of_ok s _ N pngName hcall).1 pre slot post hsplit hpre
        hslot hfresh).2 hfreeA⟩
  · intro hno
    have hloop : SkeletonRenderer.setAttachmentPngLoop N pngName s.drawOrder StdMap.empty s =
        .ok (s.drawOrder, s) := by
      have hskip := setAttachmentPngLoop_skip s N pngName s.drawOrder [] StdMap.empty hwf hno
      simpa [SkeletonRenderer.setAttachmentPngLoop] using hskip
    unfold SkeletonRenderer.setAttachmentPng
    rw [hloop]

theorem twoArmRenderer_slotResettable :
    ∀ x ∈ twoArmRenderer.drawOrder, twoArmRenderer.slotResettable x := by
  intro x hx
  simp only [twoArmRenderer, sampleRenderer, List.mem_cons, List.mem_singleton,
    List.not_mem_nil, or_false] at hx
  rcases hx with h | h <;> subst h
  · intro q hq
    have hq0 : q = 0 := (Option.some.inj hq).symm
    subst hq0
    exact ⟨sampleRegion "arm" "arm" 0, rfl, fun _ => rfl⟩
  · intro q hq
    have hq1 : q = 1 := (Option.some.inj hq).symm
    subst hq1
    exact ⟨sampleRegion "arm2" "arm" 0, rfl, fun _ => rfl⟩

/-- C13 (witness): on the skeleton whose two slots both show the atlas region `arm`,
with `arm` not equipped, address 3 free, the raw name `hat` of `img/hat.png` naming
the region attachment at address 2 and the image loading,
`setAttachmentPng("arm", "img/hat.png")` returns with slot 0 on the new attachment at
address 3 and slot 1 as it was; on the sample renderer, where no slot shows a region
called `nose`, `setAttachmentPng("nose", "img/hat.png")` returns the renderer
unchanged. -/
theorem setAttachmentPng_equips_first_slot_witness :
    (twoArmRenderer.drawOrder = [sampleSlot0, sampleSlot1] ∧
      twoArmRenderer.regionNameOf sampleSlot0 = some "arm" ∧
      twoArmRenderer.regionNameOf sampleSlot1 = some "arm" ∧
      twoArmRenderer._equipMap "arm" = none ∧
      twoArmRenderer.attachments twoArmRenderer.nextAttachment = none ∧
      twoArmRenderer.getAttachmentOffset (rawNameOf "img/hat.png") = .ok (some 2) ∧
      (twoArmRenderer.textureOf "img/hat.png").isSome = true) ∧
    (∃ s1, twoArmRenderer.setAttachmentPng "arm" "img/hat.png" = .ok s1 ∧
      s1.drawOrder = [{ sampleSlot0 with attachment := some 3 }, sampleSlot1] ∧
      sampleSlot0.attachment ≠ some 3) ∧
    sampleRenderer.setAttachmentPng "nose" "img/hat.png" = .ok sampleRenderer :=
  ⟨⟨rfl, by decide, by decide, rfl, rfl, rfl, rfl⟩,
    (setAttachmentPng_equips_first_slot twoArmRenderer "arm" "img/hat.png"
      twoArmRenderer_slotResettable).1 [] sampleSlot0 [sampleSlot1] 2 rfl
      (fun _ hx => absurd hx (List.not_mem_nil _)) (by decide) rfl rfl rfl rfl,
    (setAttachmentPng_equips_first_slot sampleRenderer "nose" "img/hat.png"
      sampleRenderer_slotResettable).2 (by
        intro x hx
        simp only [sampleRenderer, List.mem_cons, List.mem_singleton, List.not_mem_nil,
          or_false] at hx
        rcases hx with h | h <;> subst h <;> decide)⟩


/-- Values of `roundFloat`: small integers and one half are `float` values, one tenth
rounds to the `float` `0x3DCCCCCD`, and above `2 ^ 24` odd integers round to the
even neighbour of the tie rule. -/
theorem roundFloat_examples :
    roundFloat 1 = 1 ∧ roundFloat (1 / 2) = 1 / 2 ∧ roundFloat (-3) = -3 ∧
    roundFloat (1 / 10) = 13421773 / 134217728 ∧
    roundFloat 16777217 = 16777216 ∧ roundFloat 16777219 = 16777220 := by
  decide!

end spine
